import Mathlib

/-!
# hyperd pod lifecycle: a shallow embedding of `daemon/pod.go`

The Go code of `src/daemon/pod.go` is embedded as pure Lean functions.
Pointers that the source compares with `nil` are `Option`s, slices are lists,
and every call that leaves the daemon core (image manager, hypervisor, storage
driver, key-value store, log drivers) is either recorded in a trace of `Call`s
or answered by an oracle that may depend on the calls recorded so far.
-/

set_option autoImplicit false

namespace Hyperd

/-! ## Data model -/

/-- Pod status values of `types.S_POD_*`. Modelled from the spec: the constants live in the
hypervisor library; the data model lists `POD_CREATED`, `POD_RUNNING`, `POD_SUCCEEDED`,
`POD_FAILED`, `POD_STOPPED`. -/
inductive PodState where
  | S_POD_CREATED
  | S_POD_RUNNING
  | S_POD_SUCCEEDED
  | S_POD_FAILED
  | S_POD_STOPPED
deriving DecidableEq, Repr

/-- VM status values of `types.S_VM_*`. Modelled from the spec: `VM_PENDING`, `VM_RUNNING`,
`VM_IDLE`, `VM_DESTROYED`. -/
inductive VmState where
  | S_VM_PENDING
  | S_VM_RUNNING
  | S_VM_IDLE
  | S_VM_DESTROYED
deriving DecidableEq, Repr

/-- Keep policy of a VM, `types.VM_KEEP_*`. Modelled from the spec: `KEEP_NONE` or `KEEP_IDLE`. -/
inductive VmKeep where
  | VM_KEEP_NONE
  | VM_KEEP_IDLE
deriving DecidableEq, Repr

/-- Event codes of a `types.VmResponse`; the handler distinguishes two of them. -/
inductive EventCode where
  | E_POD_FINISHED
  | E_VM_SHUTDOWN
  | E_OTHER (code : Int)
deriving DecidableEq, Repr

/-- The `Data interface{}` payload of a `types.VmResponse`: `nil`, a `[]byte` or a `[]uint32`. -/
inductive RespData where
  | null
  | bytes (b : List Nat)
  | codes (c : List Nat)
deriving DecidableEq, Repr

/-- The response `types.VmResponse` (fields used by `pod.go`). -/
structure VmResponse where
  Code : EventCode
  Cause : String
  Data : RespData
deriving DecidableEq, Repr

/-- The handle `hypervisor.Vm` (fields used by `pod.go`). -/
structure Vm where
  Id : String
  Keep : VmKeep
  Status : VmState
deriving DecidableEq, Repr

/-- A log driver handle (`logger.Logger`); `none` in an `Option` is the nil interface. -/
structure Logger where
  handle : Nat
deriving DecidableEq, Repr

/-- The field `Logs` of a container status. -/
structure LogStatus where
  Driver : Option Logger
  LogPath : String
deriving DecidableEq, Repr

/-- One container of `hypervisor.PodStatus.Containers`. -/
structure Container where
  Id : String
  Name : String
  Image : String
  Cmds : List String
  Status : PodState
  Logs : LogStatus
deriving DecidableEq, Repr

/-- The runtime record `hypervisor.PodStatus` (fields used by `pod.go`). -/
structure PodStatus where
  Id : String
  Status : PodState
  Vm : String
  Type_ : String
  RestartPolicy : String
  Autoremove : Bool
  ResourcePath : String
  Containers : List Container
deriving DecidableEq, Repr

/-- A reference `pod.UserVolumeReference`. -/
structure UserVolumeReference where
  Path : String
  Volume : String
  ReadOnly : Bool
deriving DecidableEq, Repr

/-- A reference `pod.UserFileReference`. -/
structure UserFileReference where
  Path : String
  Filename : String
  Perm : String
  User : String
  Group : String
deriving DecidableEq, Repr

/-- An entry `pod.UserEnvironmentVar`. -/
structure UserEnvironmentVar where
  Env : String
  Value : String
deriving DecidableEq, Repr

/-- A container declaration `pod.UserContainer`. -/
structure UserContainer where
  Name : String
  Image : String
  Command : List String
  Entrypoint : List String
  Envs : List UserEnvironmentVar
  Volumes : List UserVolumeReference
  Files : List UserFileReference
deriving DecidableEq, Repr

/-- A pod-level volume `pod.UserVolume`. -/
structure UserVolume where
  Name : String
  Source : String
  Driver : String
deriving DecidableEq, Repr

/-- A pod-level file `pod.UserFile`. -/
structure UserFile where
  Name : String
  Encoding : String
  Uri : String
  Contents : String
deriving DecidableEq, Repr

/-- The field `LogConfig` of a pod spec. -/
structure PodLogConfig where
  Type_ : String
  Config : List (String × String)
deriving DecidableEq, Repr

/-- The pod spec `pod.UserPod` (fields used by `pod.go`). -/
structure UserPod where
  Name : String
  Type_ : String
  RestartPolicy : String
  Containers : List UserContainer
  Volumes : List UserVolume
  Files : List UserFile
  Dns : List String
  Labels : List (String × String)
  LogConfig : PodLogConfig
deriving DecidableEq, Repr

/-- Prepared container info `hypervisor.ContainerInfo` (fields used by `pod.go`). -/
structure ContainerInfo where
  Id : String
  Image : String
  Workdir : String
  Entrypoint : List String
  Cmd : List String
  Envs : List (String × String)
deriving DecidableEq, Repr

/-- Prepared volume info `hypervisor.VolumeInfo`. -/
structure VolumeInfo where
  Name : String
  Filepath : String
deriving DecidableEq, Repr

/-- The aggregate `Pod` of `pod.go`; `spec` and `vm` are pointers the source tests for nil. -/
structure Pod where
  id : String
  status : PodStatus
  spec : Option UserPod
  vm : Option Vm
  containers : List ContainerInfo
  volumes : List VolumeInfo
deriving DecidableEq, Repr

/-- The part `Config` of `dockertypes.ContainerJSON`; `Volumes` is a Go map that may be nil,
given by its keys in the order the `range` statement visits them. -/
structure ContainerConfig where
  Image : String
  WorkingDir : String
  Entrypoint : List String
  Cmd : List String
  Env : List String
  Volumes : Option (List String)
deriving DecidableEq, Repr

/-- The inspect answer `dockertypes.ContainerJSON` (fields used by `pod.go`). -/
structure ContainerJSON where
  Name : String
  Args : List String
  Config : ContainerConfig
deriving DecidableEq, Repr

/-- The argument `dockertypes.ContainerCreateConfig` with its `container.Config`. -/
structure ContainerCreateConfig where
  Name : String
  Image : String
  Cmd : List String
  Entrypoint : List String
  NetworkDisabled : Bool
deriving DecidableEq, Repr

/-- Calls that leave the daemon core, in the order they are made. -/
inductive Call where
  | ContainerCreate (config : ContainerCreateConfig)
  | ContainerInspect (id : String)
  | ContainerRm (id : String)
  | KillVm (id : String)
  | Close (driver : Logger)
  | PodStopped (id : String)
  | CleanPod (id : String)
  | RestartPod (id : String)
  | DeletePodFromDB (id : String)
  | DeletePodContainerFromDB (id : String)
  | DeleteVolumeId (id : String)
deriving DecidableEq, Repr

/-! ## String helpers of the Go standard library -/

/-- The call `strings.TrimLeft(s, "/")`: drop every leading slash. -/
def trimLeftSlash (s : String) : String :=
  String.mk (s.data.dropWhile (fun c => c == '/'))

/-- The call `strings.Replace(s, "/", "_", -1)`: every slash becomes an underscore. -/
def replaceSlash (s : String) : String :=
  String.mk (s.data.map (fun c => if c = '/' then '_' else c))

/-- The call `strings.HasSuffix(s, "/")`. -/
def hasSuffixSlash (s : String) : Bool :=
  s.data.getLast? == some '/'

/-! ## InitContainers -/

/-- The image manager and the layer DB as seen by `InitContainers`. Answers may depend on the
calls made so far. -/
structure ImageManager where
  GetPodContainersByName : String → Option (List String)
  ContainerCreate : List Call → ContainerCreateConfig → Except String String
  ContainerInspect : List Call → String → Except String ContainerJSON

/-- The local type `cinfo` of `InitContainers`. -/
structure cinfo where
  id : String
  name : String
  image : String
deriving DecidableEq, Repr

/-- Assignment `m[k] = v` on a Go map kept as an association list. -/
def mapSet {β : Type} (m : List (String × β)) (k : String) (v : β) : List (String × β) :=
  (k, v) :: m.filter (fun kv => kv.1 != k)

/-- Lookup `m[k]` with the comma-ok form. -/
def mapGet {β : Type} (m : List (String × β)) (k : String) : Option β :=
  (m.find? (fun kv => kv.1 == k)).map (fun kv => kv.2)

/-- The method `PodStatus.AddContainer(id, name, image, cmds, status)`: append one container. -/
def PodStatus.AddContainer (s : PodStatus) (id name image : String) (cmds : List String)
    (st : PodState) : PodStatus :=
  { s with Containers := s.Containers ++
      [{ Id := id, Name := name, Image := image, Cmds := cmds, Status := st,
         Logs := { Driver := none, LogPath := "" } }] }

/-- First loop of `InitContainers`: inspect every id found in the layer DB and keep the ones
whose inspection succeeds, keyed by the name without leading slashes. -/
def loadExisting (d : ImageManager) :
    List String → List (String × cinfo) → List Call → List (String × cinfo) × List Call
  | [], m, tr => (m, tr)
  | id :: ids, m, tr =>
    match d.ContainerInspect tr id with
    | .ok jsonResponse =>
      loadExisting d ids
        (mapSet m (trimLeftSlash jsonResponse.Name)
          { id := id, name := jsonResponse.Name, image := jsonResponse.Config.Image })
        (tr ++ [Call.ContainerInspect id])
    | .error _ => loadExisting d ids m (tr ++ [Call.ContainerInspect id])

/-- State of the second loop of `InitContainers`. -/
structure InitState where
  status : PodStatus
  created : List String
  trace : List Call
deriving DecidableEq, Repr

/-- Second loop of `InitContainers` over `p.spec.Containers`. The result carries the value of the
`return err` statements inside the loop body, where `err` is the variable that
`ccs, err := ...` declares in the body. -/
def initLoop (d : ImageManager) (containers : List (String × cinfo)) :
    List UserContainer → InitState → InitState × Option String
  | [], s => (s, none)
  | c :: cs, s =>
    match mapGet containers c.Name with
    | some info =>
      initLoop d containers cs
        { s with status := s.status.AddContainer info.id info.name info.image [] .S_POD_CREATED }
    | none =>
      let config : ContainerCreateConfig :=
        { Name := c.Name, Image := c.Image, Cmd := c.Command, Entrypoint := c.Entrypoint,
          NetworkDisabled := true }
      match d.ContainerCreate s.trace config with
      | .error err => ({ s with trace := s.trace ++ [Call.ContainerCreate config] }, some err)
      | .ok ccsID =>
        let tr1 := s.trace ++ [Call.ContainerCreate config]
        let created := s.created ++ [ccsID]
        match d.ContainerInspect tr1 ccsID with
        | .error err =>
          ({ s with created := created, trace := tr1 ++ [Call.ContainerInspect ccsID] }, some err)
        | .ok rsp =>
          initLoop d containers cs
            { status := s.status.AddContainer ccsID rsp.Name rsp.Config.Image [] .S_POD_CREATED,
              created := created,
              trace := tr1 ++ [Call.ContainerInspect ccsID] }

/-- The method `Pod.InitContainers`. The function-scope variable `err` of the `var` block is the
one the deferred function reads; no statement assigns it, because the loop body declares its own
`err` with `:=`. Returns the pod, the calls made and the returned error; `none` stands for the
nil dereference of `p.spec`. -/
def Pod.InitContainers (d : ImageManager) (p : Pod) : Option (Pod × List Call × Option String) :=
  let err : Option String := none
  let loaded : List (String × cinfo) × List Call :=
    match d.GetPodContainersByName p.id with
    | some ids => loadExisting d ids [] []
    | none => ([], [])
  match p.spec with
  | none => none
  | some spec =>
    let r := initLoop d loaded.1 spec.Containers
      { status := p.status, created := [], trace := loaded.2 }
    let deferred : List Call :=
      if err.isSome then r.1.created.map Call.ContainerRm else []
    some ({ p with status := r.1.status }, r.1.trace ++ deferred, r.2)

/-! ### Example input for InitContainers -/

/-- An empty pod status for pod `p1`. -/
def exStatus : PodStatus :=
  { Id := "p1", Status := .S_POD_CREATED, Vm := "", Type_ := "", RestartPolicy := "never",
    Autoremove := false, ResourcePath := "/var/lib/hyper/p1", Containers := [] }

/-- A container declaration with only a name and an image. -/
def exContainer (name : String) : UserContainer :=
  { Name := name, Image := "busybox", Command := [], Entrypoint := [], Envs := [],
    Volumes := [], Files := [] }

/-- A pod spec with two containers `c-a` and `c-b`. -/
def exSpec : UserPod :=
  { Name := "p1", Type_ := "", RestartPolicy := "never",
    Containers := [exContainer "c-a", exContainer "c-b"],
    Volumes := [], Files := [], Dns := [], Labels := [],
    LogConfig := { Type_ := "", Config := [] } }

/-- The pod record built by `CreatePodWithLock` for `exSpec`. -/
def exPod : Pod :=
  { id := "p1", status := exStatus, spec := some exSpec, vm := none, containers := [],
    volumes := [] }

/-- An image manager with an empty layer DB that creates `c-a` as `id-a` and fails on any other
name. -/
def exFailingManager : ImageManager :=
  { GetPodContainersByName := fun _ => none,
    ContainerCreate := fun _ cfg =>
      if cfg.Name = "c-a" then .ok "id-a" else .error "no such image",
    ContainerInspect := fun _ id =>
      .ok { Name := "/" ++ id, Args := [],
            Config := { Image := "busybox", WorkingDir := "", Entrypoint := [], Cmd := [],
                        Env := [], Volumes := none } } }

/-! ## Loggers and the pod event handler -/

/-- The function `stopLogger`: close the driver of every container that has one. -/
def stopLogger (mypod : PodStatus) : List Call :=
  mypod.Containers.filterMap (fun c =>
    match c.Logs.Driver with
    | none => none
    | some driver => some (Call.Close driver))

/-- The method `PodStatus.SetContainerStatus(status)`. Modelled from the spec: the method lives
in the hypervisor library; the status is "propagated to all containers". -/
def PodStatus.SetContainerStatus (mypod : PodStatus) (st : PodState) : PodStatus :=
  { mypod with Containers := mypod.Containers.map (fun c => { c with Status := st }) }

/-- What one run of the event handler leaves behind. -/
structure HandlerResult where
  mypod : PodStatus
  vm : Vm
  trace : List Call
  detach : Bool
deriving DecidableEq, Repr

/-- The function `hyperHandlePodEvent`. The library method `SetPodContainerStatus` is a
parameter. Daemon calls are recorded in the trace; `none` stands for the failed type assertion
`vmResponse.Data.([]uint32)`. -/
def hyperHandlePodEvent (SetPodContainerStatus : PodStatus → List Nat → PodStatus)
    (vmResponse : VmResponse) (mypod : PodStatus) (vm : Vm) : Option HandlerResult :=
  if vmResponse.Code = .E_POD_FINISHED then
    if vm.Keep ≠ .VM_KEEP_NONE then
      some { mypod := mypod, vm := { vm with Status := .S_VM_IDLE }, trace := [],
             detach := false }
    else
      match vmResponse.Data with
      | .codes data =>
        let tr := stopLogger mypod
        let mypod1 := SetPodContainerStatus mypod data
        let vm1 := { vm with Status := .S_VM_IDLE }
        if mypod1.Autoremove = true then
          some { mypod := mypod1, vm := vm1, trace := tr ++ [Call.CleanPod mypod1.Id],
                 detach := false }
        else
          some { mypod := mypod1, vm := vm1, trace := tr, detach := false }
      | _ => none
  else if vmResponse.Code = .E_VM_SHUTDOWN then
    let r1 : PodStatus × List Call :=
      if mypod.Status = .S_POD_RUNNING then
        (({ mypod with Status := .S_POD_SUCCEEDED }).SetContainerStatus .S_POD_SUCCEEDED,
          stopLogger mypod)
      else (mypod, [])
    let mypod2 : PodStatus := { r1.1 with Vm := "" }
    let tr2 := r1.2 ++ [Call.PodStopped mypod2.Id]
    let tr3 : List Call :=
      if mypod2.Type_ = "kubernetes" then
        match mypod2.Status with
        | .S_POD_SUCCEEDED =>
          if mypod2.RestartPolicy = "always" then [Call.RestartPod mypod2.Id]
          else
            [Call.DeletePodFromDB mypod2.Id]
              ++ mypod2.Containers.map (fun c => Call.ContainerRm c.Id)
              ++ [Call.DeletePodContainerFromDB mypod2.Id, Call.DeleteVolumeId mypod2.Id]
        | .S_POD_FAILED =>
          if mypod2.RestartPolicy ≠ "never" then [Call.RestartPod mypod2.Id]
          else
            [Call.DeletePodFromDB mypod2.Id]
              ++ mypod2.Containers.map (fun c => Call.ContainerRm c.Id)
              ++ [Call.DeletePodContainerFromDB mypod2.Id, Call.DeleteVolumeId mypod2.Id]
        | _ => []
      else []
    some { mypod := mypod2, vm := vm, trace := tr2 ++ tr3, detach := true }
  else
    some { mypod := mypod, vm := vm, trace := [], detach := false }

/-! ## The Prepare pipeline -/

/-- First inner loop of `PrepareEtcHosts`: a volume reference at `path` clears `insert`. -/
def scanVolumes (path : String) : List UserVolumeReference → Bool → Bool
  | [], insert => insert
  | v :: vs, insert => if v.Path = path then false else scanVolumes path vs insert

/-- Inner loop over file references: a file reference at `path` clears `insert`. -/
def scanFiles (path : String) : List UserFileReference → Bool → Bool
  | [], insert => insert
  | f :: fs, insert => if f.Path = path then false else scanFiles path fs insert

/-- Loop of `PrepareEtcHosts` over `p.spec.Containers`. Arguments: the containers still to
visit, `hostVolumePath`, the pod-level volumes and the containers already visited. The helper
`prepareHosts` is a parameter. -/
def etcHostsLoop (prepareHosts : String → Except String String) (id : String) :
    List UserContainer → String → List UserVolume → List UserContainer →
      List UserVolume × List UserContainer × Option String
  | [], _, vols, visited => (vols, visited, none)
  | c :: cs, hostVolumePath, vols, visited =>
    let insert := scanFiles "/etc/hosts" c.Files (scanVolumes "/etc/hosts" c.Volumes true)
    if !insert then
      etcHostsLoop prepareHosts id cs hostVolumePath vols (visited ++ [c])
    else
      let c1 : UserContainer :=
        { c with Volumes := c.Volumes ++
            [{ Path := "/etc/hosts", Volume := "etchosts-volume", ReadOnly := false }] }
      if hostVolumePath = "" then
        match prepareHosts id with
        | .error err => (vols, visited ++ c :: cs, some err)
        | .ok path =>
          etcHostsLoop prepareHosts id cs path
            (vols ++ [{ Name := "etchosts-volume", Source := path, Driver := "vfs" }])
            (visited ++ [c1])
      else
        etcHostsLoop prepareHosts id cs hostVolumePath vols (visited ++ [c1])

/-- The method `Pod.PrepareEtcHosts`. -/
def Pod.PrepareEtcHosts (prepareHosts : String → Except String String) (p : Pod) :
    Pod × Option String :=
  match p.spec with
  | none => (p, none)
  | some spec =>
    let r := etcHostsLoop prepareHosts p.id spec.Containers "" spec.Volumes []
    ({ p with spec := some { spec with Volumes := r.1, Containers := r.2.1 } }, r.2.2)

/-- First loop of `PrepareDNS`: is there a pod-level file with the given uri. -/
def hasFileUri (uri : String) : List UserFile → Bool
  | [] => false
  | src :: rest => if src.Uri = uri then true else hasFileUri uri rest

/-- Second loop of `PrepareDNS` over `p.spec.Containers`. -/
def dnsLoop (fileId : String) : List UserContainer → List UserContainer
  | [] => []
  | c :: cs =>
    let insert := scanFiles "/etc/resolv.conf" c.Files true
    if !insert then c :: dnsLoop fileId cs
    else
      { c with Files := c.Files ++
          [{ Path := "/etc/resolv.conf", Filename := fileId, Perm := "0644", User := "",
             Group := "" }] } :: dnsLoop fileId cs

/-- The method `Pod.PrepareDNS`; `hostRegular` tells whether `os.Stat` finds the host file
`/etc/resolv.conf` and it is a regular file. -/
def Pod.PrepareDNS (hostRegular : Bool) (p : Pod) : Pod × Option String :=
  let resolvconf := "/etc/resolv.conf"
  let fileId := p.id ++ "-resolvconf"
  match p.spec with
  | none => (p, some "No Spec available for insert a DNS configuration")
  | some spec =>
    if spec.Dns.length > 0 then (p, none)
    else if !hostRegular then (p, none)
    else if hasFileUri "file:///etc/resolv.conf" spec.Files then (p, none)
    else
      let files := spec.Files ++
        [{ Name := fileId, Encoding := "raw", Uri := "file://" ++ resolvconf, Contents := "" }]
      ({ p with spec := some { spec with Files := files,
                                          Containers := dnsLoop fileId spec.Containers } }, none)

/-- Loop of `processImageVolumes` over the keys of `config.Config.Volumes`. -/
def imageVolumesLoop (id : String) :
    List String → List UserVolume → List UserVolumeReference →
      List UserVolume × List UserVolumeReference
  | [], vs, rs => (vs, rs)
  | tgt :: rest, vs, rs =>
    let n := id ++ replaceSlash tgt
    imageVolumesLoop id rest
      (vs ++ [{ Name := n, Source := "", Driver := "" }])
      (rs ++ [{ Volume := n, Path := tgt, ReadOnly := false }])

/-- The function `processImageVolumes`; the results are the pod with its new pod-level volumes
and the container with its new references. -/
def processImageVolumes (config : ContainerJSON) (id : String) (userPod : UserPod)
    (container : UserContainer) : UserPod × UserContainer :=
  match config.Config.Volumes with
  | none => (userPod, container)
  | some vols =>
    let r := imageVolumesLoop id vols userPod.Volumes container.Volumes
    ({ userPod with Volumes := r.1 }, { container with Volumes := r.2 })

/-! ## File injection -/

/-- The `io.Reader` handed to `InjectFile`: a `strings.NewReader`, an opened uri, or a
`base64.NewDecoder` around another reader. -/
inductive Reader where
  | strings (contents : String)
  | uri (u : String)
  | base64 (src : Reader)
deriving DecidableEq, Repr

/-- One call `sd.InjectFile(src, id, targetPath, sharedDir, perm, uid, gid)`. -/
structure InjectCall where
  src : Reader
  id : String
  targetPath : String
  sharedDir : String
  perm : Int
  uid : Int
  gid : Int
deriving DecidableEq, Repr

/-- What `processInjectFiles` uses from outside `pod.go`: the storage driver method `InjectFile`
(its answer may depend on the earlier calls) and the helpers `utils.UriReader`, `utils.PermInt`,
`utils.UidInt`. An answer `some e` of `InjectFile` or `UriReader` is the error `e`. -/
structure InjectEnv where
  InjectFile : List InjectCall → InjectCall → Option String
  UriReader : String → Option String
  PermInt : String → Int
  UidInt : String → Int

/-- Loop of `processInjectFiles` over `container.Files`; `calls` are the `InjectFile` calls made
so far. The map `files` is given by its lookup function. -/
def injectLoop (env : InjectEnv) (files : String → Option UserFile) (id sharedDir : String) :
    List UserFileReference → List InjectCall → List InjectCall × Option String
  | [], calls => (calls, none)
  | f :: fs, calls =>
    let targetPath := if hasSuffixSlash f.Path then f.Path ++ f.Filename else f.Path
    match files f.Filename with
    | none => injectLoop env files id sharedDir fs calls
    | some file =>
      let opened : Except String Reader :=
        if file.Uri ≠ "" then
          match env.UriReader file.Uri with
          | some err => .error err
          | none => .ok (Reader.uri file.Uri)
        else .ok (Reader.strings file.Contents)
      match opened with
      | .error err => (calls, some err)
      | .ok src0 =>
        let src := if file.Encoding = "base64" then Reader.base64 src0 else src0
        let call : InjectCall :=
          { src := src, id := id, targetPath := targetPath, sharedDir := sharedDir,
            perm := env.PermInt f.Perm, uid := env.UidInt f.User, gid := env.UidInt f.Group }
        match env.InjectFile calls call with
        | some err => (calls ++ [call], some err)
        | none => injectLoop env files id sharedDir fs (calls ++ [call])

/-- The function `processInjectFiles`: the `InjectFile` calls it makes and the error it
returns. The parameter `rootPath` is not used by the source either; the deferred
`urisrc.Close()` calls make no `InjectFile` call and are left out. -/
def processInjectFiles (env : InjectEnv) (container : UserContainer)
    (files : String → Option UserFile) (id rootPath sharedDir : String) :
    List InjectCall × Option String :=
  let _ := rootPath
  injectLoop env files id sharedDir container.Files []

/-- Bytes of a Go string: the UTF-8 encoding of its characters. -/
def stringBytes (s : String) : List Nat :=
  s.data.flatMap (fun c => (String.utf8EncodeChar c).map (fun b => b.toNat))

/-- Value of one character of the standard base64 alphabet. -/
def base64Value (b : Nat) : Option Nat :=
  if 65 ≤ b ∧ b ≤ 90 then some (b - 65)
  else if 97 ≤ b ∧ b ≤ 122 then some (b - 97 + 26)
  else if 48 ≤ b ∧ b ≤ 57 then some (b - 48 + 52)
  else if b = 43 then some 62
  else if b = 47 then some 63
  else none

/-- Decode padded base64 text in canonical form: groups of four characters of the alphabet,
where `=` (61) may pad only the last group; `none` for any other text. -/
def base64DecodeQuanta : List Nat → Option (List Nat)
  | [] => some []
  | a :: b :: c :: d :: rest =>
    match base64Value a, base64Value b with
    | some x, some y =>
      if d = 61 then
        if rest ≠ [] then none
        else if c = 61 then some [(x * 4 + y / 16) % 256]
        else
          match base64Value c with
          | some z => some [(x * 4 + y / 16) % 256, (y * 16 + z / 4) % 256]
          | none => none
      else
        match base64Value c, base64Value d, base64DecodeQuanta rest with
        | some z, some w, some tl =>
          some ((x * 4 + y / 16) % 256 :: (y * 16 + z / 4) % 256 :: (z * 64 + w) % 256 :: tl)
        | _, _, _ => none
    | _, _ => none
  | _ => none

/-- What reading a reader to the end gives, as far as the source decides it. -/
inductive ReadOutcome where
  /-- Exactly these bytes and no error. -/
  | bytes (b : List Nat)
  /-- The text handed to a base64 decoder is not padded base64 text in canonical form. The
  library decoder then answers with a corrupt-input error, possibly after some bytes, or with
  bytes and no error, depending on the sizes of the reads the consumer makes; the source fixes
  neither, and nothing is said about this case. -/
  | undetermined
deriving DecidableEq, Repr

/-- Reading `base64.NewDecoder(base64.StdEncoding, src)` to the end, for the bytes `input` of
`src`: line breaks are skipped; canonical text gives its decoding. -/
def base64Decode (input : List Nat) : ReadOutcome :=
  match base64DecodeQuanta (input.filter (fun b => b ≠ 10 ∧ b ≠ 13)) with
  | some decoded => .bytes decoded
  | none => .undetermined

/-- Reading a reader to the end; `fetch` gives the content behind a uri. -/
def Reader.readAll (fetch : String → List Nat) : Reader → ReadOutcome
  | .strings contents => .bytes (stringBytes contents)
  | .uri u => .bytes (fetch u)
  | .base64 src =>
    match src.readAll fetch with
    | .bytes input => base64Decode input
    | .undetermined => .undetermined

/-- The character of the standard base64 alphabet for a six-bit value. -/
def base64Char (n : Nat) : Nat :=
  if n < 26 then 65 + n
  else if n < 52 then 97 + (n - 26)
  else if n < 62 then 48 + (n - 52)
  else if n = 62 then 43
  else 47

/-- The padded base64 text of a list of bytes (`base64.StdEncoding.EncodeToString`): what
"the base64 decoding" of a text refers back to. -/
def base64Encode : List Nat → List Nat
  | [] => []
  | [a] => [base64Char (a / 4), base64Char (a % 4 * 16), 61, 61]
  | [a, b] => [base64Char (a / 4), base64Char (a % 4 * 16 + b / 16), base64Char (b % 16 * 4), 61]
  | a :: b :: c :: rest =>
    base64Char (a / 4) :: base64Char (a % 4 * 16 + b / 16) ::
      base64Char (b % 16 * 4 + c / 64) :: base64Char (c % 64) :: base64Encode rest

/-! ## Start -/

/-- One stream `hypervisor.TtyIO`, known by its client tag. -/
structure TtyIO where
  ClientTag : String
deriving DecidableEq, Repr

/-- What `Start` uses from outside `pod.go`, and the parts of `Prepare` and `startLogging`
that depend on the storage driver, the image manager and the hypervisor. A step of type
`Pod → Pod × Option String` returns the pod it leaves and its error. -/
structure StartEnv where
  GetVM : String → UserPod → Bool → VmKeep → Option Vm × Option String
  PrepareServices : Pod → Pod × Option String
  prepareHosts : String → Except String String
  hostRegular : Bool
  PrepareContainers : Pod → Pod × Option String
  PrepareVolume : Pod → Pod × Option String
  startLogging : Pod → Pod × Option String
  Attach : Vm → TtyIO → String → Option String
  StartPod : Pod → Pod × VmResponse
  UpdateVmData : String → List Nat → Option String
  UpdateVmByPod : String → String → Option String

/-- Run a step of the pipeline. No step assigns `p.id` or the pointer `p.vm` (only `GetVM`,
`SetVM` and `KillVM` do), so both are carried over. -/
def runStep (f : Pod → Pod × Option String) (p : Pod) : Pod × Option String :=
  ({ (f p).1 with id := p.id, vm := p.vm }, (f p).2)

/-- The method `Pod.GetVM`. -/
def Pod.GetVM (env : StartEnv) (p : Pod) (id : String) (lazy : Bool) (keep : VmKeep) :
    Pod × Option String :=
  match p.spec with
  | none => (p, some "Pod: unable to create VM without resource info.")
  | some spec => ({ p with vm := (env.GetVM id spec lazy keep).1 }, (env.GetVM id spec lazy keep).2)

/-- The method `Pod.KillVM`. -/
def Pod.KillVM (p : Pod) : Pod × List Call :=
  match p.vm with
  | some vm => ({ p with vm := none }, [Call.KillVm vm.Id])
  | none => (p, [])

/-- The method `Pod.Prepare`: services, hosts file, DNS, containers, volumes; the first error
ends it. -/
def Pod.Prepare (env : StartEnv) (p : Pod) : Pod × Option String :=
  let r1 := runStep env.PrepareServices p
  if r1.2.isSome then r1 else
  let r2 := r1.1.PrepareEtcHosts env.prepareHosts
  if r2.2.isSome then r2 else
  let r3 := r2.1.PrepareDNS env.hostRegular
  if r3.2.isSome then r3 else
  let r4 := runStep env.PrepareContainers r3.1
  if r4.2.isSome then r4 else
  let r5 := runStep env.PrepareVolume r4.1
  if r5.2.isSome then r5 else
  (r5.1, none)

/-- Loop of `AttachTtys` over the streams, with the containers not yet paired. -/
def attachLoop (env : StartEnv) (vm : Vm) : List TtyIO → List ContainerInfo → Option String
  | [], _ => none
  | _ :: _, [] => none
  | str :: strs, c :: cs =>
    match env.Attach vm str c.Id with
    | some err => some err
    | none => attachLoop env vm strs cs

/-- The method `Pod.AttachTtys`; the outer `none` stands for a run-time panic (slicing
`p.containers[1:]` of an empty slice, or a nil `p.spec` or `p.vm`). -/
def Pod.AttachTtys (env : StartEnv) (p : Pod) (streams : List TtyIO) : Option (Option String) :=
  match p.spec, p.vm with
  | some spec, some vm =>
    if spec.Type_ = "service-discovery" then
      match p.containers with
      | [] => none
      | _ :: ttyContainers => some (attachLoop env vm streams ttyContainers)
    else some (attachLoop env vm streams p.containers)
  | some spec, none =>
    if spec.Type_ = "service-discovery" then
      match p.containers with
      | [] => none
      | _ :: ttyContainers => if streams = [] ∨ ttyContainers = [] then some none else none
    else if streams = [] ∨ p.containers = [] then some none else none
  | none, _ => none

/-- What one run of `Start` leaves behind. -/
structure StartResult where
  pod : Pod
  response : Option VmResponse
  err : Option String
  trace : List Call
deriving DecidableEq, Repr

/-- First deferred function of `Start`: kill the VM when `err` is set and `vmId` is empty. -/
def Start.deferKill (p : Pod) (vmId : String) (err : Option String) : Pod × List Call :=
  if err.isSome ∧ vmId = "" then p.KillVM else (p, [])

/-- Second deferred function of `Start`: stop the loggers when `err` is set. -/
def Start.deferStop (p : Pod) (err : Option String) : List Call :=
  if err.isSome then stopLogger p.status else []

/-- Leave `Start` after both deferred functions were registered: they run last-in first-out. -/
def Start.leave (p : Pod) (vmId : String) (response : Option VmResponse) (err : Option String) :
    StartResult :=
  { pod := (Start.deferKill p vmId err).1, response := response, err := err,
    trace := Start.deferStop p err ++ (Start.deferKill p vmId err).2 }

/-- The method `Pod.Start`. The trace holds the `Close` and `KillVm` calls of the deferred
functions; `none` stands for a run-time panic (in `AttachTtys`, a nil `p.vm`, or the type
assertion `vmResponse.Data.([]byte)`). -/
def Pod.Start (env : StartEnv) (p : Pod) (vmId : String) (lazy : Bool) (keep : VmKeep)
    (streams : List TtyIO) : Option StartResult :=
  let r0 := p.GetVM env vmId lazy keep
  if r0.2.isSome then
    some { pod := r0.1, response := none, err := r0.2, trace := [] }
  else
  let r1 := r0.1.Prepare env
  if r1.2.isSome then
    some { pod := (Start.deferKill r1.1 vmId r1.2).1, response := none, err := r1.2,
           trace := (Start.deferKill r1.1 vmId r1.2).2 }
  else
  let r2 := runStep env.startLogging r1.1
  if r2.2.isSome then some (Start.leave r2.1 vmId none r2.2) else
  match r2.1.AttachTtys env streams with
  | none => none
  | some (some err) => some (Start.leave r2.1 vmId none (some err))
  | some none =>
    match r2.1.vm with
    | none => none
    | some vm =>
      let r3 := runStep (fun q => ((env.StartPod q).1, none)) r2.1
      let vmResponse := (env.StartPod r2.1).2
      match vmResponse.Data with
      | .null => some (Start.leave r3.1 vmId (some vmResponse) (some "VM response data is nil"))
      | .codes _ => none
      | .bytes data =>
        match env.UpdateVmData vm.Id data with
        | some err => some (Start.leave r3.1 vmId none (some err))
        | none =>
          match env.UpdateVmByPod r3.1.id vm.Id with
          | some err => some (Start.leave r3.1 vmId none (some err))
          | none => some (Start.leave r3.1 vmId (some vmResponse) none)

/-! ### Example inputs for the event handler -/

/-- An exit-code rule for the examples: a container is failed when its code is not zero, the pod
is failed when some code is not zero and succeeded otherwise. -/
def exSetPodContainerStatus (mypod : PodStatus) (data : List Nat) : PodStatus :=
  { mypod with
    Status := if data.all (fun code => code == 0) then .S_POD_SUCCEEDED else .S_POD_FAILED,
    Containers := (mypod.Containers.zip data).map (fun cd =>
      { cd.1 with Status := if cd.2 = 0 then .S_POD_SUCCEEDED else .S_POD_FAILED }) }

/-- A container status entry with an optional log driver. -/
def exContainerStatus (id name : String) (driver : Option Logger) : Container :=
  { Id := id, Name := name, Image := "busybox", Cmds := [], Status := .S_POD_RUNNING,
    Logs := { Driver := driver, LogPath := "" } }

/-- A running kubernetes pod `p2` with policy always; only its first container has a driver. -/
def exRunningStatus : PodStatus :=
  { Id := "p2", Status := .S_POD_RUNNING, Vm := "vm-1", Type_ := "kubernetes",
    RestartPolicy := "always", Autoremove := false, ResourcePath := "/var/lib/hyper/p2",
    Containers := [exContainerStatus "id-a" "c-a" (some { handle := 1 }),
                   exContainerStatus "id-b" "c-b" none] }

/-- A running VM `vm-1` that is not kept after its pod finishes. -/
def exVm : Vm :=
  { Id := "vm-1", Keep := .VM_KEEP_NONE, Status := .S_VM_RUNNING }

/-! ### Example inputs for Start -/

/-- An environment in which a VM is always found (a fresh one is called `vm-new`) and every
step succeeds except the last one, `UpdateVmByPod`. -/
def exStartEnv : StartEnv :=
  { GetVM := fun id _ _ keep =>
      (some { Id := if id = "" then "vm-new" else id, Keep := keep, Status := .S_VM_RUNNING },
        none),
    PrepareServices := fun p => (p, none),
    prepareHosts := fun id => .ok ("/var/lib/hyper/hosts/" ++ id),
    hostRegular := true,
    PrepareContainers := fun p => (p, none),
    PrepareVolume := fun p => (p, none),
    startLogging := fun p => (p, none),
    Attach := fun _ _ _ => none,
    StartPod := fun p => (p, { Code := .E_OTHER 0, Cause := "", Data := .bytes [1] }),
    UpdateVmData := fun _ _ => none,
    UpdateVmByPod := fun _ _ => some "db write failed" }

/-- The environment `exStartEnv` with a service-discovery step that fails, so that `Prepare`
fails. -/
def exPrepareFailsEnv : StartEnv :=
  { exStartEnv with PrepareServices := fun p => (p, some "service discovery failed") }

/-- A pod that ran before: its first container still holds the log driver of that run. -/
def exLoggedPod : Pod :=
  { id := "p2",
    status := { exRunningStatus with Status := .S_POD_SUCCEEDED, Vm := "" },
    spec := some { exSpec with Name := "p2" },
    vm := none, containers := [], volumes := [] }

/-! ### Example inputs for the Prepare pipeline -/

/-- A hosts-file generator that always succeeds. -/
def exPrepareHosts (id : String) : Except String String :=
  .ok ("/var/lib/hyper/hosts/" ++ id)

/-- A pod whose first container mounts its own `/etc/hosts` volume and whose second container
declares its own `/etc/resolv.conf` file. -/
def exMixedSpec : UserPod :=
  { exSpec with
    Containers :=
      [{ exContainer "c-a" with
          Volumes := [{ Path := "/etc/hosts", Volume := "myhosts", ReadOnly := true }] },
       { exContainer "c-b" with
          Files := [{ Path := "/etc/resolv.conf", Filename := "resolv", Perm := "0600",
                      User := "", Group := "" }] }] }

/-- The pod record of `exMixedSpec`. -/
def exMixedPod : Pod :=
  { exPod with spec := some exMixedSpec }

/-! ### The calls the specification describes for file injection -/

/-- The call described for a file reference `f` naming the pod-level file `file`: the target
path is the reference path, extended by the file name when the path ends in a slash; the reader
is the uri or the literal contents, wrapped in a base64 decoder when the encoding is base64. -/
def describedInjectCall (env : InjectEnv) (id sharedDir : String) (f : UserFileReference)
    (file : UserFile) : InjectCall :=
  { src :=
      if file.Encoding = "base64" then
        Reader.base64 (if file.Uri = "" then Reader.strings file.Contents else Reader.uri file.Uri)
      else if file.Uri = "" then Reader.strings file.Contents else Reader.uri file.Uri,
    id := id,
    targetPath := if hasSuffixSlash f.Path then f.Path ++ f.Filename else f.Path,
    sharedDir := sharedDir,
    perm := env.PermInt f.Perm, uid := env.UidInt f.User, gid := env.UidInt f.Group }

/-- The calls described for a list of file references: one per reference whose file name is
found in the pod-level file table, in reference order. -/
def describedInjectCalls (env : InjectEnv) (files : String → Option UserFile)
    (id sharedDir : String) (refs : List UserFileReference) : List InjectCall :=
  refs.filterMap (fun f => (files f.Filename).map (describedInjectCall env id sharedDir f))

/-! ### Example inputs for file injection -/

/-- A storage driver whose `InjectFile` always fails. -/
def exInjectFailEnv : InjectEnv :=
  { InjectFile := fun _ _ => some "no space left on device",
    UriReader := fun _ => none,
    PermInt := fun _ => 420,
    UidInt := fun _ => 0 }

/-- A storage driver and helpers that never fail. -/
def exInjectOkEnv : InjectEnv :=
  { exInjectFailEnv with InjectFile := fun _ _ => none }

/-- The pod-level files `f` (base64 of `hello`) and `g` (raw), as a lookup table. -/
def exFiles (name : String) : Option UserFile :=
  if name = "f" then some { Name := "f", Encoding := "base64", Uri := "", Contents := "aGVsbG8=" }
  else if name = "g" then some { Name := "g", Encoding := "raw", Uri := "", Contents := "hi" }
  else none

/-- A container that injects `f` under `/tmp/`. -/
def exOneFileContainer : UserContainer :=
  { exContainer "c-a" with
    Files := [{ Path := "/tmp/", Filename := "f", Perm := "0644", User := "", Group := "" }] }

/-- A container that injects `f` under `/tmp/` and `g` at `/etc/motd`. -/
def exTwoFilesContainer : UserContainer :=
  { exContainer "c-a" with
    Files := [{ Path := "/tmp/", Filename := "f", Perm := "0644", User := "", Group := "" },
              { Path := "/etc/motd", Filename := "g", Perm := "0644", User := "", Group := "" }] }

/-- The handler result after `E_POD_FINISHED` with exit codes `[0,0]` on `exRunningStatus`. -/
def exFinished : HandlerResult :=
  { mypod := exSetPodContainerStatus exRunningStatus [0, 0],
    vm := { exVm with Status := .S_VM_IDLE },
    trace := [Call.Close { handle := 1 }],
    detach := false }

/-! ## CreatePod -/

/-- What `CreatePod` does to the registry, the host and the image manager, in order. -/
inductive CreateEffect where
  | Lock
  | Unlock
  | RandStr
  | MkdirAll (path : String)
  | ImageCall (c : Call)
  | AddPod (id : String) (podArgs : String)
deriving DecidableEq, Repr

/-- What `CreatePod` uses from outside `pod.go`: the running-pod count of the registry, the
random suffix `pod.RandStr(10, "alpha")`, the constant `DefaultResourcePath`, `filepath.Join`,
`os.MkdirAll`, the spec parser and validator, `hypervisor.NewPod`, the image manager and
`daemon.AddPod` (which persists the spec and inserts the record). An answer `some e` is the
error `e`. -/
structure CreateEnv where
  GetRunningPodNum : Nat
  RandStr : String
  DefaultResourcePath : String
  filepathJoin : String → String → String
  MkdirAll : String → Option String
  ProcessPodBytes : String → String → Except String UserPod
  Validate : UserPod → Option String
  NewPod : String → UserPod → PodStatus
  images : ImageManager
  AddPod : Pod → String → Option String

/-- What one run of `CreatePod` returns and does. -/
structure CreateResult where
  pod : Option Pod
  err : Option String
  effects : List CreateEffect
deriving DecidableEq, Repr

/-- The method `Daemon.CreatePodWithLock`; `none` stands for a run-time panic inside
`InitContainers`. -/
def CreatePodWithLock (env : CreateEnv) (podId podArgs : String) (autoremove : Bool) :
    Option CreateResult :=
  let resPath := env.filepathJoin env.DefaultResourcePath podId
  match env.MkdirAll resPath with
  | some err => some { pod := none, err := some err, effects := [.MkdirAll resPath] }
  | none =>
    match env.ProcessPodBytes podArgs podId with
    | .error err => some { pod := none, err := some err, effects := [.MkdirAll resPath] }
    | .ok spec =>
      match env.Validate spec with
      | some err => some { pod := none, err := some err, effects := [.MkdirAll resPath] }
      | none =>
        let status : PodStatus :=
          { env.NewPod podId spec with Autoremove := autoremove, ResourcePath := resPath }
        let pod : Pod :=
          { id := podId, status := status, spec := some spec, vm := none, containers := [],
            volumes := [] }
        match pod.InitContainers env.images with
        | none => none
        | some (_, calls, some err) =>
          some { pod := none, err := some err,
                 effects := .MkdirAll resPath :: calls.map CreateEffect.ImageCall }
        | some (pod1, calls, none) =>
          match env.AddPod pod1 podArgs with
          | some err =>
            some { pod := none, err := some err,
                   effects := .MkdirAll resPath :: calls.map CreateEffect.ImageCall
                     ++ [.AddPod podId podArgs] }
          | none =>
            some { pod := some pod1, err := none,
                   effects := .MkdirAll resPath :: calls.map CreateEffect.ImageCall
                     ++ [.AddPod podId podArgs] }

/-- The method `Daemon.CreatePod`. -/
def CreatePod (env : CreateEnv) (podId podArgs : String) (autoremove : Bool) :
    Option CreateResult :=
  if env.GetRunningPodNum ≥ 1024 then
    some { pod := none, err := some "Pod full, the maximum Pod is 1024!", effects := [] }
  else
    let podId1 := if podId = "" then "pod-" ++ env.RandStr else podId
    match CreatePodWithLock env podId1 podArgs autoremove with
    | none => none
    | some r =>
      some { r with effects :=
        .Lock :: (if podId = "" then [CreateEffect.RandStr] else []) ++ r.effects ++ [.Unlock] }

/-! ### Example input for CreatePod -/

/-- A daemon with the given number of running pods in which everything else succeeds. -/
def exCreateEnv (running : Nat) : CreateEnv :=
  { GetRunningPodNum := running,
    RandStr := "abcdefghij",
    DefaultResourcePath := "/var/run/hyper",
    filepathJoin := fun a b => a ++ "/" ++ b,
    MkdirAll := fun _ => none,
    ProcessPodBytes := fun _ _ => .ok exSpec,
    Validate := fun _ => none,
    NewPod := fun id _ => { exStatus with Id := id },
    images := exFailingManager,
    AddPod := fun _ _ => none }

/-! ## SetPodLabels -/

/-- Does the first list of characters start the second one. -/
def startsWithChars : List Char → List Char → Bool
  | [], _ => true
  | _ :: _, [] => false
  | a :: as, b :: bs => a == b && startsWithChars as bs

/-- Does the first list of characters occur inside the second one. -/
def containsChars (sub : List Char) : List Char → Bool
  | [] => sub.isEmpty
  | c :: cs => startsWithChars sub (c :: cs) || containsChars sub cs

/-- The call `strings.Contains(s, substr)`. -/
def stringsContains (s substr : String) : Bool :=
  containsChars substr.data s.data

/-- What `SetPodLabels` uses from outside `pod.go`: the registry lookups `PodList.Get` and
`PodList.GetByName`, `json.Marshal` of the spec and the store write `WritePodToDB`. -/
structure LabelEnv where
  Get : String → Option Pod
  GetByName : String → Option Pod
  Marshal : UserPod → Except String String
  WritePodToDB : String → String → Option String

/-- What one run of `SetPodLabels` leaves behind: the registered pod as it is afterwards (when
one was found), the store writes attempted and the returned error. -/
structure LabelResult where
  pod : Option Pod
  writes : List (String × String)
  err : Option String
deriving DecidableEq, Repr

/-- First part of `SetPodLabels`: an identifier that contains `pod-` is looked up as an id, any
other one as a name. -/
def lookupPod (env : LabelEnv) (podId : String) : Except String Pod :=
  if stringsContains podId "pod-" then
    match env.Get podId with
    | some pod => .ok pod
    | none => .error ("Can not get Pod info with pod ID(" ++ podId ++ ")")
  else
    match env.GetByName podId with
    | some pod => .ok pod
    | none => .error ("Can not get Pod info with pod name(" ++ podId ++ ")")

/-- First loop of `SetPodLabels` over the supplied labels, in the order `range` visits them:
the first key that is already a label of the pod while `override` is false. -/
def findConflict (podLabels : List (String × String)) (override : Bool) :
    List (String × String) → Option String
  | [] => none
  | kv :: rest =>
    if (mapGet podLabels kv.1).isSome && !override then some kv.1
    else findConflict podLabels override rest

/-- Second loop of `SetPodLabels`: assign every supplied label. -/
def setLabelsLoop : List (String × String) → List (String × String) → List (String × String)
  | [], m => m
  | kv :: rest, m => setLabelsLoop rest (mapSet m kv.1 kv.2)

/-- The method `Daemon.SetPodLabels`. The supplied map `labels` is given by its entries in
iteration order; `none` stands for the nil dereference of `pod.spec`. -/
def SetPodLabels (env : LabelEnv) (podId : String) (override : Bool)
    (labels : List (String × String)) : Option LabelResult :=
  match lookupPod env podId with
  | .error err => some { pod := none, writes := [], err := some err }
  | .ok pod =>
    match pod.spec with
    | none => none
    | some spec =>
      match findConflict spec.Labels override labels with
      | some k =>
        some { pod := some pod, writes := [],
               err := some ("Can't update label " ++ k ++ " without override") }
      | none =>
        let spec1 : UserPod := { spec with Labels := setLabelsLoop labels spec.Labels }
        let pod1 : Pod := { pod with spec := some spec1 }
        match env.Marshal spec1 with
        | .error err => some { pod := some pod1, writes := [], err := some err }
        | .ok blob =>
          match env.WritePodToDB pod1.id blob with
          | some err => some { pod := some pod1, writes := [(pod1.id, blob)], err := some err }
          | none => some { pod := some pod1, writes := [(pod1.id, blob)], err := none }

/-! ### Example input for SetPodLabels -/

/-- The pod `pod-1` with the single label `tier=web`. -/
def exLabelledPod : Pod :=
  { exPod with id := "pod-1", spec := some { exSpec with Labels := [("tier", "web")] } }

/-- A registry that holds `exLabelledPod` and a store that accepts every write. -/
def exLabelEnv : LabelEnv :=
  { Get := fun id => if id = "pod-1" then some exLabelledPod else none,
    GetByName := fun _ => none,
    Marshal := fun spec => .ok ("labels=" ++ toString spec.Labels.length),
    WritePodToDB := fun _ _ => none }

/-! ## PrepareContainers -/

/-- The expression `strings.Index(v, "=")` on the characters of `v`: the position of the first
`=`, or `none` for the answer `-1`. The sign `=` is one byte, so cutting the characters at this
position is cutting the bytes at the byte index. -/
def indexEq : List Char → Option Nat
  | [] => none
  | c :: cs => if c = '=' then some 0 else (indexEq cs).map (fun i => i + 1)

/-- First environment loop of `PrepareContainers`, over `info.Config.Env`:
`env[v[:i]] = v[i+1:]` with `i` the index of `=`; `none` stands for the panic of `v[:-1]`. -/
def imageEnvLoop : List String → List (String × String) → Option (List (String × String))
  | [], env => some env
  | v :: rest, env =>
    match indexEq v.data with
    | none => none
    | some i =>
      imageEnvLoop rest (mapSet env (String.mk (v.data.take i)) (String.mk (v.data.drop (i + 1))))

/-- Second environment loop of `PrepareContainers`, over the `Envs` of the spec container. -/
def specEnvLoop : List UserEnvironmentVar → List (String × String) → List (String × String)
  | [], env => env
  | e :: rest, env => specEnvLoop rest (mapSet env e.Env e.Value)

/-- The environment map `PrepareContainers` builds for one container from the image
environment and the spec environment. -/
def containerEnvs (imageEnv : List String) (specEnvs : List UserEnvironmentVar) :
    Option (List (String × String)) :=
  match imageEnvLoop imageEnv [] with
  | none => none
  | some env => some (specEnvLoop specEnvs env)

/-- What `PrepareContainers` uses from outside `pod.go`: the image manager's inspection, the
storage driver (`Type`, `RootPath`, `PrepareContainer`, `InjectFile`), the mount-id file read by
`GetMountIdByContainer`, and the shared directory `path.Join(BaseDir, vmId, ShareDirTag)`. -/
structure ContainersEnv where
  ContainerInspect : String → Except String ContainerJSON
  storageType : String
  RootPath : String
  GetMountIdByContainer : String → String → Except String String
  PrepareContainer : String → String → Except String ContainerInfo
  sharedDir : String → String
  inject : InjectEnv

/-- Loop of `PrepareContainers` that fills the map `files`. -/
def filesLoop : List UserFile → List (String × UserFile) → List (String × UserFile)
  | [], files => files
  | f :: rest, files => filesLoop rest (mapSet files f.Name f)

/-- What the main loop of `PrepareContainers` carries: the status containers already visited,
the spec, the prepared containers and the `InjectFile` calls made. -/
structure ContainersState where
  visited : List Container
  spec : UserPod
  containers : List ContainerInfo
  injected : List InjectCall

/-- Main loop of `PrepareContainers` over `p.status.Containers`, at index `i`. The result is
the state with the status containers as they are left, and the returned error; `none` stands
for a panic (an image environment entry without `=`, or no spec container at index `i`: both
end the run the same way, so the index is looked up first). -/
def prepareContainersLoop (env : ContainersEnv) (sharedDir : String)
    (files : List (String × UserFile)) :
    Nat → List Container → ContainersState → Option (ContainersState × Option String)
  | _, [], s => some (s, none)
  | i, c :: cs, s =>
    match env.ContainerInspect c.Id with
    | .error err => some ({ s with visited := s.visited ++ c :: cs }, some err)
    | .ok info =>
      let c1 : Container :=
        { c with Name := if c.Name = "" then info.Name else c.Name,
                 Image := if c.Image = "" then info.Config.Image else c.Image }
      match env.GetMountIdByContainer env.storageType c.Id with
      | .error err => some ({ s with visited := s.visited ++ c1 :: cs }, some err)
      | .ok mountId =>
        match env.PrepareContainer mountId sharedDir with
        | .error err => some ({ s with visited := s.visited ++ c1 :: cs }, some err)
        | .ok ci0 =>
          match s.spec.Containers[i]? with
          | none => none
          | some uc =>
            match containerEnvs info.Config.Env uc.Envs with
            | none => none
            | some envs =>
              let ci : ContainerInfo :=
                { ci0 with Id := c.Id, Workdir := info.Config.WorkingDir,
                           Entrypoint := info.Config.Entrypoint,
                           Cmd := info.Config.Cmd ++ info.Args, Envs := envs }
              let r := processImageVolumes info c.Id s.spec uc
              let spec1 : UserPod := { r.1 with Containers := r.1.Containers.set i r.2 }
              let inj := processInjectFiles env.inject r.2 (mapGet files) mountId env.RootPath
                sharedDir
              match inj.2 with
              | some err =>
                some ({ visited := s.visited ++ c1 :: cs, spec := spec1,
                        containers := s.containers, injected := s.injected ++ inj.1 }, some err)
              | none =>
                prepareContainersLoop env sharedDir files (i + 1) cs
                  { visited := s.visited ++ [c1], spec := spec1,
                    containers := s.containers ++ [ci], injected := s.injected ++ inj.1 }

/-- The method `Pod.PrepareContainers`: the pod as it is left, the `InjectFile` calls made and
the returned error; `none` stands for a panic (also the nil dereference of `p.vm` or
`p.spec`). -/
def Pod.PrepareContainers (env : ContainersEnv) (p : Pod) :
    Option (Pod × List InjectCall × Option String) :=
  match p.vm, p.spec with
  | some vm, some spec =>
    match prepareContainersLoop env (env.sharedDir vm.Id) (filesLoop spec.Files [])
        0 p.status.Containers
        { visited := [], spec := spec, containers := [], injected := [] } with
    | none => none
    | some (s, err) =>
      some ({ p with status := { p.status with Containers := s.visited },
                     spec := some s.spec, containers := s.containers }, s.injected, err)
  | _, _ => none

/-! ### Example input for PrepareContainers -/

/-- An image manager, storage driver and mount DB that always answer; every image has the
environment `PATH=/bin`, `LANG=C`, `OPTS=a=b`. -/
def exContainersEnv : ContainersEnv :=
  { ContainerInspect := fun id =>
      .ok { Name := "/" ++ id, Args := [],
            Config := { Image := "busybox", WorkingDir := "/", Entrypoint := [], Cmd := ["sh"],
                        Env := ["PATH=/bin", "LANG=C", "OPTS=a=b"], Volumes := none } },
    storageType := "overlay",
    RootPath := "/var/lib/hyper",
    GetMountIdByContainer := fun _ cid => .ok ("mount-" ++ cid),
    PrepareContainer := fun mountId _ =>
      .ok { Id := "", Image := mountId, Workdir := "", Entrypoint := [], Cmd := [], Envs := [] },
    sharedDir := fun vmId => "/var/run/hyper/" ++ vmId ++ "/share_dir",
    inject := exInjectOkEnv }

/-- A spec with one container `c-a` that sets `LANG` and `HOME`. -/
def exEnvSpec : UserPod :=
  { exSpec with
    Containers := [{ exContainer "c-a" with
      Envs := [{ Env := "LANG", Value := "en_US" }, { Env := "HOME", Value := "/root" }] }] }

/-- A pod bound to `vm-1` with the spec `exEnvSpec` and the status container `id-a`. -/
def exEnvPod : Pod :=
  { id := "p1",
    status := { exStatus with Containers := [exContainerStatus "id-a" "c-a" none] },
    spec := some exEnvSpec,
    vm := some exVm, containers := [], volumes := [] }

/-! ### The words of the specification on image environment entries -/

/-- The name an image environment entry declares: the text before its first `=`. -/
def entryName (v : String) : String :=
  String.mk (v.data.takeWhile (fun c => c != '='))

/-- The text after the first `=` of an image environment entry. -/
def entryValue (v : String) : String :=
  String.mk ((v.data.dropWhile (fun c => c != '=')).drop 1)

/-! ## getLogger -/

/-- The argument `logger.Context` of a log-driver creator (without `ContainerCreated`, which is
the wall-clock time of the call). -/
structure LogContext where
  Config : List (String × String)
  ContainerID : String
  ContainerName : String
  ContainerImageName : String
  ContainerEntrypoint : String
  ContainerArgs : List String
  ContainerImageID : String
  LogPath : String
deriving DecidableEq, Repr

/-- What `getLogger` uses from outside `pod.go`: the daemon's default log configuration,
`logger.ValidateLogOpts`, `logger.GetLogDriver` (which answers with a creator; a creator is
given the contexts it was called with before, and answers with a driver and an error), the
constant `jsonfilelog.Name` and `filepath.Join`. -/
structure LogEnv where
  DefaultLog : PodLogConfig
  ValidateLogOpts : String → List (String × String) → Option String
  GetLogDriver :
    String → Except String (List LogContext → LogContext → Option Logger × Option String)
  jsonfilelogName : String
  filepathJoin : String → String → String

/-- First loop of `getLogger`: the indices of the containers without a driver. -/
def needLoggerLoop : Nat → List Container → List Nat → List Nat
  | _, [], needLogger => needLogger
  | i, c :: cs, needLogger =>
    if c.Logs.Driver.isNone then needLoggerLoop (i + 1) cs (needLogger ++ [i])
    else needLoggerLoop (i + 1) cs needLogger

/-- The context `getLogger` builds for the status container `c` at index `i`. -/
def logContext (env : LogEnv) (spec : UserPod) (prepared : List ContainerInfo)
    (resourcePath : String) (i : Nat) (c : Container) (uc : UserContainer) : LogContext :=
  let ctx0 : LogContext :=
    { Config := spec.LogConfig.Config, ContainerID := c.Id, ContainerName := c.Name,
      ContainerImageName := uc.Image, ContainerEntrypoint := "", ContainerArgs := [],
      ContainerImageID := "", LogPath := "" }
  let ctx1 : LogContext :=
    match prepared[i]? with
    | some ci =>
      { ctx0 with ContainerEntrypoint := ci.Workdir, ContainerArgs := ci.Cmd,
                  ContainerImageID := ci.Image }
    | none => ctx0
  if spec.LogConfig.Type_ = env.jsonfilelogName then
    { ctx1 with LogPath := env.filepathJoin resourcePath (c.Id ++ "-json.log") }
  else ctx1

/-- Second loop of `getLogger` over `p.status.Containers`, at index `i`: every container is
given the driver that `creator` answers for its context. Carried along are the containers
already visited and the contexts `creator` was called with; `none` stands for the panic of
`p.spec.Containers[i]` out of range. -/
def getLoggerLoop (env : LogEnv)
    (creator : List LogContext → LogContext → Option Logger × Option String)
    (spec : UserPod) (prepared : List ContainerInfo) (resourcePath : String) :
    Nat → List Container → List Container → List LogContext →
      Option (List Container × List LogContext × Option String)
  | _, [], visited, calls => some (visited, calls, none)
  | i, c :: cs, visited, calls =>
    match spec.Containers[i]? with
    | none => none
    | some uc =>
      let ctx := logContext env spec prepared resourcePath i c uc
      let c1 : Container := { c with Logs := { c.Logs with Driver := (creator calls ctx).1 } }
      match (creator calls ctx).2 with
      | some err => some (visited ++ c1 :: cs, calls ++ [ctx], some err)
      | none =>
        getLoggerLoop env creator spec prepared resourcePath (i + 1) cs (visited ++ [c1])
          (calls ++ [ctx])

/-- The method `Pod.getLogger`: the pod as it is left, the contexts the creator was called
with, and the returned error; `none` stands for a panic (also the nil dereference of
`p.spec`). -/
def Pod.getLogger (env : LogEnv) (p : Pod) : Option (Pod × List LogContext × Option String) :=
  match p.spec with
  | none => none
  | some spec0 =>
    let spec : UserPod :=
      if spec0.LogConfig.Type_ = "" then
        { spec0 with LogConfig := { Type_ := env.DefaultLog.Type_,
                                    Config := env.DefaultLog.Config } }
      else spec0
    let p1 : Pod := { p with spec := some spec }
    if spec.LogConfig.Type_ = "none" then some (p1, [], none)
    else
      let needLogger := needLoggerLoop 0 p.status.Containers []
      if needLogger.length = 0 ∧ p.status.Status = .S_POD_RUNNING then some (p1, [], none)
      else
        match env.ValidateLogOpts spec.LogConfig.Type_ spec.LogConfig.Config with
        | some err => some (p1, [], some err)
        | none =>
          match env.GetLogDriver spec.LogConfig.Type_ with
          | .error err => some (p1, [], some err)
          | .ok creator =>
            match getLoggerLoop env creator spec p.containers p.status.ResourcePath 0
                p.status.Containers [] [] with
            | none => none
            | some (containers, calls, err) =>
              some ({ p1 with status := { p.status with Containers := containers } }, calls, err)

/-! ### Example input for getLogger -/

/-- A creator for the examples: the driver of the `n`-th call has handle `100 + n`. -/
def exCreator (calls : List LogContext) (_ : LogContext) : Option Logger × Option String :=
  (some { handle := 100 + calls.length }, none)

/-- A daemon whose default log type is `json-file`, where validation and driver lookup always
succeed. -/
def exLogEnv : LogEnv :=
  { DefaultLog := { Type_ := "json-file", Config := [] },
    ValidateLogOpts := fun _ _ => none,
    GetLogDriver := fun _ => .ok exCreator,
    jsonfilelogName := "json-file",
    filepathJoin := fun a b => a ++ "/" ++ b }

/-- The effective log configuration of a pod: its own, or the daemon default when its log type
is empty. -/
def effectiveLogConfig (env : LogEnv) (spec : UserPod) : PodLogConfig :=
  if spec.LogConfig.Type_ = "" then env.DefaultLog else spec.LogConfig

/-- A daemon like `exLogEnv` whose creator always fails. -/
def exLogFailEnv : LogEnv :=
  { exLogEnv with GetLogDriver := fun _ => .ok (fun _ _ => (none, some "cannot open log")) }

/-! ## Theorems -/

/-- C1: creating `c-a` succeeds and creating `c-b` fails; `InitContainers` returns the error of
the failed creation, yet its trace ends with the failed `ContainerCreate` and holds no
`ContainerRm` call, so the container `id-a` created in this invocation is left behind. -/
theorem InitContainers_leaves_created_container :
    ∃ p, exPod.InitContainers exFailingManager =
      some (p,
        [Call.ContainerCreate { Name := "c-a", Image := "busybox", Cmd := [], Entrypoint := [],
                                NetworkDisabled := true },
         Call.ContainerInspect "id-a",
         Call.ContainerCreate { Name := "c-b", Image := "busybox", Cmd := [], Entrypoint := [],
                                NetworkDisabled := true }],
        some "no such image") ∧
      p.status.Containers.map (fun c => c.Id) = ["id-a"] := by
  refine ⟨_, rfl, ?_⟩
  decide

/-- C2: on `E_VM_SHUTDOWN` for a pod of type `kubernetes` with policy always, on-failure or
never, the calls after `PodStopped` are exactly the action of the restart-policy table for the
status held after the RUNNING-to-SUCCEEDED conversion: `RestartPod` alone, or the deletion
sequence alone, or nothing for a status the table does not list. -/
theorem hyperHandlePodEvent_restart_policy
    (SetPodContainerStatus : PodStatus → List Nat → PodStatus) (cause : String) (data : RespData)
    (mypod : PodStatus) (vm : Vm)
    (hType : mypod.Type_ = "kubernetes")
    (hPolicy : mypod.RestartPolicy = "always" ∨ mypod.RestartPolicy = "on-failure" ∨
      mypod.RestartPolicy = "never") :
    ∃ r action,
      hyperHandlePodEvent SetPodContainerStatus
        { Code := .E_VM_SHUTDOWN, Cause := cause, Data := data } mypod vm = some r ∧
      r.trace = (if mypod.Status = .S_POD_RUNNING then stopLogger mypod else [])
        ++ Call.PodStopped mypod.Id :: action ∧
      r.mypod.Status = (if mypod.Status = .S_POD_RUNNING then .S_POD_SUCCEEDED else mypod.Status) ∧
      (r.mypod.Status = .S_POD_SUCCEEDED → mypod.RestartPolicy = "always" →
        action = [Call.RestartPod mypod.Id]) ∧
      (r.mypod.Status = .S_POD_SUCCEEDED →
        mypod.RestartPolicy = "on-failure" ∨ mypod.RestartPolicy = "never" →
        action = Call.DeletePodFromDB mypod.Id
          :: (mypod.Containers.map (fun c => Call.ContainerRm c.Id)
            ++ [Call.DeletePodContainerFromDB mypod.Id, Call.DeleteVolumeId mypod.Id])) ∧
      (r.mypod.Status = .S_POD_FAILED →
        mypod.RestartPolicy = "always" ∨ mypod.RestartPolicy = "on-failure" →
        action = [Call.RestartPod mypod.Id]) ∧
      (r.mypod.Status = .S_POD_FAILED → mypod.RestartPolicy = "never" →
        action = Call.DeletePodFromDB mypod.Id
          :: (mypod.Containers.map (fun c => Call.ContainerRm c.Id)
            ++ [Call.DeletePodContainerFromDB mypod.Id, Call.DeleteVolumeId mypod.Id])) ∧
      (r.mypod.Status ≠ .S_POD_SUCCEEDED → r.mypod.Status ≠ .S_POD_FAILED → action = []) ∧
      (mypod.Status = .S_POD_RUNNING → mypod.RestartPolicy = "always" →
        action = [Call.RestartPod mypod.Id]) ∧
      ¬ (Call.RestartPod mypod.Id ∈ action ∧ Call.DeletePodFromDB mypod.Id ∈ action) := by
  obtain ⟨Id, Status, Vm, Type_, RestartPolicy, Autoremove, ResourcePath, Containers⟩ := mypod
  simp only at hType hPolicy
  subst hType
  rcases hPolicy with h | h | h <;> subst h <;> cases Status <;>
    simp [hyperHandlePodEvent, PodStatus.SetContainerStatus, Function.comp_def]

/-- Witness of C2 on the running kubernetes pod `p2` with policy always. -/
theorem hyperHandlePodEvent_restart_policy_witness :
    exRunningStatus.Type_ = "kubernetes" ∧
    (exRunningStatus.RestartPolicy = "always" ∨ exRunningStatus.RestartPolicy = "on-failure" ∨
      exRunningStatus.RestartPolicy = "never") ∧
    ∃ r action,
      hyperHandlePodEvent exSetPodContainerStatus
        { Code := .E_VM_SHUTDOWN, Cause := "", Data := .null } exRunningStatus exVm = some r ∧
      r.trace = (if exRunningStatus.Status = .S_POD_RUNNING then stopLogger exRunningStatus
        else []) ++ Call.PodStopped exRunningStatus.Id :: action ∧
      (exRunningStatus.Status = .S_POD_RUNNING → exRunningStatus.RestartPolicy = "always" →
        action = [Call.RestartPod exRunningStatus.Id]) :=
  ⟨rfl, Or.inl rfl,
    (hyperHandlePodEvent_restart_policy exSetPodContainerStatus "" .null exRunningStatus exVm rfl
      (Or.inl rfl)).imp fun _ h =>
        h.imp fun _ h => ⟨h.1, h.2.1, h.2.2.2.2.2.2.2.2.1⟩⟩

/-- C3: on `E_VM_SHUTDOWN` a running pod becomes succeeded, with every container set to
succeeded and its loggers stopped; a pod in any other status keeps its status and containers and
no logger is closed. In both cases `Vm` is cleared, `PodStopped` is called with the pod id and
the handler detaches. When the exit codes `[0,0]` applied on `E_POD_FINISHED` left the pod
running or succeeded, the following `E_VM_SHUTDOWN` leaves it succeeded with `Vm` cleared. -/
theorem hyperHandlePodEvent_vm_shutdown
    (SetPodContainerStatus : PodStatus → List Nat → PodStatus) (cause : String) (data : RespData)
    (mypod : PodStatus) (vm : Vm) :
    (∃ r rest,
      hyperHandlePodEvent SetPodContainerStatus
        { Code := .E_VM_SHUTDOWN, Cause := cause, Data := data } mypod vm = some r ∧
      (mypod.Status = .S_POD_RUNNING →
        r.mypod = { mypod with
          Status := .S_POD_SUCCEEDED, Vm := "",
          Containers := mypod.Containers.map (fun c => { c with Status := .S_POD_SUCCEEDED }) } ∧
        r.trace = stopLogger mypod ++ Call.PodStopped mypod.Id :: rest) ∧
      (mypod.Status ≠ .S_POD_RUNNING →
        r.mypod = { mypod with Vm := "" } ∧ r.trace = Call.PodStopped mypod.Id :: rest) ∧
      (∀ d, Call.Close d ∉ rest) ∧
      r.mypod.Vm = "" ∧ Call.PodStopped mypod.Id ∈ r.trace ∧ r.detach = true ∧ r.vm = vm) ∧
    (∀ r1, vm.Keep = .VM_KEEP_NONE →
      hyperHandlePodEvent SetPodContainerStatus
        { Code := .E_POD_FINISHED, Cause := cause, Data := .codes [0, 0] } mypod vm = some r1 →
      r1.mypod = SetPodContainerStatus mypod [0, 0] ∧ r1.detach = false ∧
      (r1.mypod.Status = .S_POD_RUNNING ∨ r1.mypod.Status = .S_POD_SUCCEEDED →
        ∃ r2,
          hyperHandlePodEvent SetPodContainerStatus
            { Code := .E_VM_SHUTDOWN, Cause := cause, Data := data } r1.mypod r1.vm = some r2 ∧
          r2.mypod.Status = .S_POD_SUCCEEDED ∧ r2.mypod.Vm = "" ∧ r2.detach = true)) := by
  constructor
  · obtain ⟨Id, Status, Vm, Type_, RestartPolicy, Autoremove, ResourcePath, Containers⟩ := mypod
    by_cases hk : Type_ = "kubernetes"
    · by_cases ha : RestartPolicy = "always" <;> by_cases hn : RestartPolicy = "never" <;>
        cases Status <;>
        simp [hyperHandlePodEvent, PodStatus.SetContainerStatus, hk, ha, hn]
    · cases Status <;>
        simp [hyperHandlePodEvent, PodStatus.SetContainerStatus, hk]
  · intro r1 hkeep h1
    simp only [hyperHandlePodEvent, hkeep, ne_eq, not_true_eq_false, if_true, if_false] at h1
    have key : r1.mypod = SetPodContainerStatus mypod [0, 0] ∧ r1.detach = false := by
      split at h1 <;> simp at h1 <;> subst h1 <;> simp
    refine ⟨key.1, key.2, ?_⟩
    intro hst
    generalize r1.mypod = q at hst
    obtain ⟨Id, Status, Vm, Type_, RestartPolicy, Autoremove, ResourcePath, Containers⟩ := q
    simp only at hst
    rcases hst with h | h <;> subst h <;>
      simp [hyperHandlePodEvent, PodStatus.SetContainerStatus]

/-- Witness of C3: the scenario of a running pod whose two containers exit with `[0,0]`. -/
theorem hyperHandlePodEvent_vm_shutdown_witness :
    hyperHandlePodEvent exSetPodContainerStatus
      { Code := .E_POD_FINISHED, Cause := "", Data := .codes [0, 0] } exRunningStatus exVm
      = some exFinished ∧
    ∃ r2,
      hyperHandlePodEvent exSetPodContainerStatus
        { Code := .E_VM_SHUTDOWN, Cause := "", Data := .null } exFinished.mypod exFinished.vm
        = some r2 ∧
      r2.mypod.Status = .S_POD_SUCCEEDED ∧ r2.mypod.Vm = "" ∧ r2.detach = true :=
  ⟨by decide,
    ((hyperHandlePodEvent_vm_shutdown exSetPodContainerStatus "" .null exRunningStatus exVm).2
      exFinished rfl (by decide)).2.2 (Or.inr (by decide))⟩

/-- Helper: a pipeline step leaves the VM pointer alone. -/
theorem runStep_vm (f : Pod → Pod × Option String) (p : Pod) : (runStep f p).1.vm = p.vm := rfl

/-- Helper: `PrepareEtcHosts` leaves the VM pointer alone. -/
theorem PrepareEtcHosts_vm (prepareHosts : String → Except String String) (p : Pod) :
    (p.PrepareEtcHosts prepareHosts).1.vm = p.vm := by
  unfold Pod.PrepareEtcHosts
  split <;> rfl

/-- Helper: `PrepareDNS` leaves the VM pointer alone. -/
theorem PrepareDNS_vm (hostRegular : Bool) (p : Pod) : (p.PrepareDNS hostRegular).1.vm = p.vm := by
  unfold Pod.PrepareDNS
  split
  · rfl
  · simp only
    split_ifs <;> rfl

/-- Helper: `Prepare` leaves the VM pointer alone. -/
theorem Prepare_vm (env : StartEnv) (p : Pod) : (p.Prepare env).1.vm = p.vm := by
  unfold Pod.Prepare
  simp only
  split_ifs <;>
    simp only [runStep_vm, PrepareEtcHosts_vm, PrepareDNS_vm]

/-- Helper: leaving `Start` with an error while the pod holds the VM `vm`. -/
theorem Start_leave_err (p : Pod) (vm : Vm) (hvm : p.vm = some vm) (vmId : String)
    (response : Option VmResponse) (e : String) :
    (Start.leave p vmId response (some e)).pod.vm = (if vmId = "" then none else some vm) ∧
    (Start.leave p vmId response (some e)).pod.status = p.status ∧
    (Start.leave p vmId response (some e)).trace =
      stopLogger p.status ++ (if vmId = "" then [Call.KillVm vm.Id] else []) := by
  by_cases h : vmId = "" <;>
    simp [Start.leave, Start.deferKill, Start.deferStop, Pod.KillVM, hvm, h]

/-- Helper: what a failed `Start` leaves behind once the VM was acquired. The loggers are
stopped unless the failure came from `Prepare`; the VM is killed exactly for an empty `vmId`. -/
theorem Start_failure_trace (env : StartEnv) (p : Pod) (vmId : String) (lazy : Bool)
    (keep : VmKeep) (streams : List TtyIO) (spec : UserPod) (vm : Vm) (r : StartResult)
    (e : String) (hspec : p.spec = some spec)
    (hget : env.GetVM vmId spec lazy keep = (some vm, none))
    (hstart : p.Start env vmId lazy keep streams = some r) (herr : r.err = some e) :
    r.pod.vm = (if vmId = "" then none else some vm) ∧
    r.trace =
      (if (({ p with vm := some vm } : Pod).Prepare env).2.isSome then []
        else stopLogger r.pod.status)
      ++ (if vmId = "" then [Call.KillVm vm.Id] else []) := by
  have hr0 : p.GetVM env vmId lazy keep = ({ p with vm := some vm }, none) := by
    simp [Pod.GetVM, hspec, hget]
  unfold Pod.Start at hstart
  simp only [hr0, Option.isSome_none, Bool.false_eq_true, if_false] at hstart
  have hv1 : (({ p with vm := some vm } : Pod).Prepare env).1.vm = some vm := Prepare_vm _ _
  generalize ({ p with vm := some vm } : Pod).Prepare env = r1 at hstart hv1 ⊢
  obtain ⟨p1, e1⟩ := r1
  simp only at hv1 hstart ⊢
  cases e1 with
  | some e1 =>
    simp only [Option.isSome_some, if_true, Option.some.injEq] at hstart
    subst hstart
    by_cases h : vmId = "" <;> simp [Start.deferKill, Pod.KillVM, hv1, h]
  | none =>
    simp only [Option.isSome_none, Bool.false_eq_true, if_false] at hstart
    have hv2 : (runStep env.startLogging p1).1.vm = some vm := by rw [runStep_vm]; exact hv1
    generalize runStep env.startLogging p1 = r2 at hstart hv2
    obtain ⟨p2, e2⟩ := r2
    simp only at hv2 hstart
    cases e2 with
    | some e2 =>
      simp only [Option.isSome_some, if_true, Option.some.injEq] at hstart
      subst hstart
      have := Start_leave_err p2 vm hv2 vmId none e2
      simp [this]
    | none =>
      simp only [Option.isSome_none, Bool.false_eq_true, if_false] at hstart
      split at hstart
      · exact absurd hstart (by simp)
      · simp only [Option.some.injEq] at hstart
        subst hstart
        have := Start_leave_err p2 vm hv2 vmId
        simp [this]
      · simp only [hv2] at hstart
        have hv3 : (runStep (fun q => ((env.StartPod q).1, none)) p2).1.vm = some vm := by
          rw [runStep_vm]; exact hv2
        generalize runStep (fun q => ((env.StartPod q).1, none)) p2 = r3 at hstart hv3
        split at hstart
        · simp only [Option.some.injEq] at hstart
          subst hstart
          have := Start_leave_err r3.1 vm hv3 vmId
          simp [this]
        · exact absurd hstart (by simp)
        · split at hstart
          · simp only [Option.some.injEq] at hstart
            subst hstart
            have := Start_leave_err r3.1 vm hv3 vmId
            simp [this]
          · split at hstart
            · simp only [Option.some.injEq] at hstart
              subst hstart
              have := Start_leave_err r3.1 vm hv3 vmId
              simp [this]
            · simp only [Option.some.injEq] at hstart
              subst hstart
              simp [Start.leave] at herr

/-- C4: when `Start` got its VM and a later step fails, an empty `vmId` means the VM is killed
(`KillVm` is called on it and the pod's VM handle is nil afterwards), and a `vmId` supplied by
the caller means no `KillVm` call at all and the handle is kept. -/
theorem Start_kills_vm_iff_fresh (env : StartEnv) (p : Pod) (vmId : String) (lazy : Bool)
    (keep : VmKeep) (streams : List TtyIO) (spec : UserPod) (vm : Vm) (r : StartResult)
    (e : String) (hspec : p.spec = some spec)
    (hget : env.GetVM vmId spec lazy keep = (some vm, none))
    (hstart : p.Start env vmId lazy keep streams = some r) (herr : r.err = some e) :
    (vmId = "" → r.pod.vm = none ∧ Call.KillVm vm.Id ∈ r.trace ∧
      r.trace.count (Call.KillVm vm.Id) = 1) ∧
    (vmId ≠ "" → r.pod.vm = some vm ∧ ∀ id, Call.KillVm id ∉ r.trace) := by
  obtain ⟨hvm, htr⟩ := Start_failure_trace env p vmId lazy keep streams spec vm r e hspec hget
    hstart herr
  have hnk : ∀ (st : PodStatus) (id : String), Call.KillVm id ∉ stopLogger st := by
    intro st id hmem
    simp only [stopLogger, List.mem_filterMap] at hmem
    obtain ⟨c, _, hc⟩ := hmem
    split at hc <;> simp at hc
  have hnc : ∀ (st : PodStatus) (id : String), (stopLogger st).count (Call.KillVm id) = 0 :=
    fun st id => List.count_eq_zero.mpr (hnk st id)
  constructor
  · intro h
    rw [htr]
    simp only [hvm, h, if_true, true_and]
    split_ifs <;> simp [hnc]
  · intro h
    rw [htr]
    simp only [hvm, h, if_false, true_and, List.append_nil]
    intro id
    split_ifs
    · simp
    · exact hnk _ id

/-- Witness of C4: `UpdateVmByPod` fails after a fresh VM `vm-new` was acquired. -/
theorem Start_kills_vm_iff_fresh_witness :
    ∃ r, exLoggedPod.Start exStartEnv "" false .VM_KEEP_NONE [] = some r ∧
      r.err = some "db write failed" ∧
      ("" = "" → r.pod.vm = none ∧ Call.KillVm "vm-new" ∈ r.trace ∧
        r.trace.count (Call.KillVm "vm-new") = 1) :=
  ⟨_, rfl, rfl,
    (Start_kills_vm_iff_fresh exStartEnv exLoggedPod "" false .VM_KEEP_NONE []
      { exSpec with Name := "p2" }
      { Id := "vm-new", Keep := .VM_KEEP_NONE, Status := .S_VM_RUNNING } _ "db write failed"
      rfl rfl rfl rfl).1⟩

/-- C5, refuted as stated: `Prepare` fails after the VM `vm-new` was acquired; the pod holds a
log driver, yet `Start` leaves with the `KillVm` call only and closes no driver. -/
theorem Start_prepare_failure_closes_nothing :
    ∃ r, exLoggedPod.Start exPrepareFailsEnv "" false .VM_KEEP_NONE [] = some r ∧
      r.err = some "service discovery failed" ∧
      stopLogger r.pod.status = [Call.Close { handle := 1 }] ∧
      r.trace = [Call.KillVm "vm-new"] :=
  ⟨_, rfl, rfl, by decide, by decide⟩

/-- C5, amended: when `Start` got its VM and `Prepare` succeeded, a failure of any later step
runs `stopLogger` on the pod's status before anything else is undone, and that closes exactly
the non-nil log drivers of the containers; when `Prepare` itself fails no driver is closed. -/
theorem Start_failure_stops_loggers (env : StartEnv) (p : Pod) (vmId : String) (lazy : Bool)
    (keep : VmKeep) (streams : List TtyIO) (spec : UserPod) (vm : Vm) (r : StartResult)
    (e : String) (hspec : p.spec = some spec)
    (hget : env.GetVM vmId spec lazy keep = (some vm, none))
    (hstart : p.Start env vmId lazy keep streams = some r) (herr : r.err = some e) :
    ((({ p with vm := some vm } : Pod).Prepare env).2 = none →
      ∃ rest, r.trace = stopLogger r.pod.status ++ rest ∧ ∀ d, Call.Close d ∉ rest) ∧
    ((({ p with vm := some vm } : Pod).Prepare env).2 ≠ none → ∀ d, Call.Close d ∉ r.trace) ∧
    (∀ d, Call.Close d ∈ stopLogger r.pod.status ↔
      ∃ c ∈ r.pod.status.Containers, c.Logs.Driver = some d) := by
  obtain ⟨_, htr⟩ := Start_failure_trace env p vmId lazy keep streams spec vm r e hspec hget
    hstart herr
  refine ⟨?_, ?_, ?_⟩
  · intro hp
    refine ⟨if vmId = "" then [Call.KillVm vm.Id] else [], ?_, ?_⟩
    · rw [htr, hp]; simp
    · intro d; split_ifs <;> simp
  · intro hp
    obtain ⟨e1, he1⟩ := Option.ne_none_iff_exists.mp hp
    rw [htr, ← he1]
    intro d
    by_cases h : vmId = "" <;> simp [h]
  · intro d
    simp only [stopLogger, List.mem_filterMap]
    constructor
    · rintro ⟨c, hc, h⟩
      refine ⟨c, hc, ?_⟩
      split at h <;> simp_all
    · rintro ⟨c, hc, h⟩
      exact ⟨c, hc, by simp [h]⟩

/-- Witness of C5 (amended): `Prepare` succeeds, `UpdateVmByPod` fails, and the driver of the
first container is closed before the VM is killed. -/
theorem Start_failure_stops_loggers_witness :
    ∃ r, exLoggedPod.Start exStartEnv "" false .VM_KEEP_NONE [] = some r ∧
      r.err = some "db write failed" ∧
      (∃ rest, r.trace = stopLogger r.pod.status ++ rest ∧ ∀ d, Call.Close d ∉ rest) ∧
      r.trace = [Call.Close { handle := 1 }, Call.KillVm "vm-new"] :=
  ⟨_, rfl, rfl,
    (Start_failure_stops_loggers exStartEnv exLoggedPod "" false .VM_KEEP_NONE []
      { exSpec with Name := "p2" }
      { Id := "vm-new", Keep := .VM_KEEP_NONE, Status := .S_VM_RUNNING } _ "db write failed"
      rfl rfl rfl rfl).1 rfl,
    by decide⟩

/-- Helper: the volume scan clears `insert` when some reference has the path. -/
theorem scanVolumes_of_mem (path : String) (vs : List UserVolumeReference) (insert : Bool)
    (h : ∃ v ∈ vs, v.Path = path) : scanVolumes path vs insert = false := by
  induction vs with
  | nil => simp at h
  | cons v vs ih =>
    by_cases hv : v.Path = path
    · simp [scanVolumes, hv]
    · simp only [List.mem_cons, exists_eq_or_imp, hv, false_or] at h
      simp [scanVolumes, hv, ih h]

/-- Helper: the volume scan keeps `insert` when no reference has the path. -/
theorem scanVolumes_of_not_mem (path : String) (vs : List UserVolumeReference) (insert : Bool)
    (h : ¬ ∃ v ∈ vs, v.Path = path) : scanVolumes path vs insert = insert := by
  induction vs with
  | nil => simp [scanVolumes]
  | cons v vs ih =>
    simp only [List.mem_cons, exists_eq_or_imp, not_or] at h
    simp [scanVolumes, h.1, ih h.2]

/-- Helper: the file scan clears `insert` when some reference has the path. -/
theorem scanFiles_of_mem (path : String) (fs : List UserFileReference) (insert : Bool)
    (h : ∃ f ∈ fs, f.Path = path) : scanFiles path fs insert = false := by
  induction fs with
  | nil => simp at h
  | cons f fs ih =>
    by_cases hf : f.Path = path
    · simp [scanFiles, hf]
    · simp only [List.mem_cons, exists_eq_or_imp, hf, false_or] at h
      simp [scanFiles, hf, ih h]

/-- Helper: the file scan keeps `insert` when no reference has the path. -/
theorem scanFiles_of_not_mem (path : String) (fs : List UserFileReference) (insert : Bool)
    (h : ¬ ∃ f ∈ fs, f.Path = path) : scanFiles path fs insert = insert := by
  induction fs with
  | nil => simp [scanFiles]
  | cons f fs ih =>
    simp only [List.mem_cons, exists_eq_or_imp, not_or] at h
    simp [scanFiles, h.1, ih h.2]

/-- Helper: with a hosts-file generator that succeeds, the loop of `PrepareEtcHosts` visits
every container, appends the reference where it is missing and returns no error. -/
theorem etcHostsLoop_ok (prepareHosts : String → Except String String) (id path : String)
    (h : prepareHosts id = .ok path) (cs : List UserContainer) :
    ∀ (hostVolumePath : String) (vols : List UserVolume) (visited : List UserContainer),
      (etcHostsLoop prepareHosts id cs hostVolumePath vols visited).2 =
        (visited ++ cs.map (fun c =>
          if (∃ v ∈ c.Volumes, v.Path = "/etc/hosts") ∨ (∃ f ∈ c.Files, f.Path = "/etc/hosts")
          then c
          else { c with Volumes := c.Volumes ++
            [{ Path := "/etc/hosts", Volume := "etchosts-volume", ReadOnly := false }] }),
          none) := by
  induction cs with
  | nil => intro hvp vols visited; simp [etcHostsLoop]
  | cons c cs ih =>
    intro hvp vols visited
    unfold etcHostsLoop
    by_cases hv : ∃ v ∈ c.Volumes, v.Path = "/etc/hosts"
    · by_cases hf : ∃ f ∈ c.Files, f.Path = "/etc/hosts"
      · simp [scanVolumes_of_mem _ _ _ hv, scanFiles_of_mem _ _ _ hf, hv, ih]
      · simp [scanVolumes_of_mem _ _ _ hv, scanFiles_of_not_mem _ _ _ hf, hv, ih]
    · by_cases hf : ∃ f ∈ c.Files, f.Path = "/etc/hosts"
      · simp [scanVolumes_of_not_mem _ _ _ hv, scanFiles_of_mem _ _ _ hf, hf, ih]
      · by_cases hp : hvp = ""
        · simp [scanVolumes_of_not_mem _ _ _ hv, scanFiles_of_not_mem _ _ _ hf, hv, hf, hp, h, ih]
        · simp [scanVolumes_of_not_mem _ _ _ hv, scanFiles_of_not_mem _ _ _ hf, hv, hf, hp, ih]

/-- C6: when the hosts file can be generated, `PrepareEtcHosts` returns no error and leaves the
containers in place and order; a container with a volume or file reference at `/etc/hosts` is
unchanged, and every other container gets one reference to `etchosts-volume` at `/etc/hosts`
appended after its own volume references, with nothing else changed. -/
theorem PrepareEtcHosts_appends_one_reference (prepareHosts : String → Except String String)
    (p : Pod) (spec : UserPod) (path : String) (hspec : p.spec = some spec)
    (hhosts : prepareHosts p.id = .ok path) :
    ∃ spec1,
      p.PrepareEtcHosts prepareHosts = ({ p with spec := some spec1 }, none) ∧
      spec1.Containers = spec.Containers.map (fun c =>
        if (∃ v ∈ c.Volumes, v.Path = "/etc/hosts") ∨ (∃ f ∈ c.Files, f.Path = "/etc/hosts")
        then c
        else { c with Volumes := c.Volumes ++
          [{ Path := "/etc/hosts", Volume := "etchosts-volume", ReadOnly := false }] }) := by
  have hloop := etcHostsLoop_ok prepareHosts p.id path hhosts spec.Containers "" spec.Volumes []
  refine ⟨{ spec with
      Volumes := (etcHostsLoop prepareHosts p.id spec.Containers "" spec.Volumes []).1,
      Containers := (etcHostsLoop prepareHosts p.id spec.Containers "" spec.Volumes []).2.1 },
    ?_, ?_⟩
  · simp only [Pod.PrepareEtcHosts, hspec]
    rw [hloop]
  · simp only [hloop, List.nil_append]

/-- Witness of C6: the first container of `exMixedPod` mounts its own `/etc/hosts`, the second
one gets the shared reference. -/
theorem PrepareEtcHosts_appends_one_reference_witness :
    exMixedPod.spec = some exMixedSpec ∧
    exPrepareHosts exMixedPod.id = .ok "/var/lib/hyper/hosts/p1" ∧
    ∃ spec1,
      exMixedPod.PrepareEtcHosts exPrepareHosts = ({ exMixedPod with spec := some spec1 }, none) ∧
      spec1.Containers.map (fun c => c.Volumes) =
        [[{ Path := "/etc/hosts", Volume := "myhosts", ReadOnly := true }],
         [{ Path := "/etc/hosts", Volume := "etchosts-volume", ReadOnly := false }]] :=
  ⟨rfl, rfl,
    (PrepareEtcHosts_appends_one_reference exPrepareHosts exMixedPod exMixedSpec
      "/var/lib/hyper/hosts/p1" rfl rfl).imp fun _ h => ⟨h.1, by rw [h.2]; decide⟩⟩

/-- Helper: the uri scan of `PrepareDNS` finds a file exactly when one has the uri. -/
theorem hasFileUri_iff (uri : String) (fs : List UserFile) :
    hasFileUri uri fs = true ↔ ∃ f ∈ fs, f.Uri = uri := by
  induction fs with
  | nil => simp [hasFileUri]
  | cons f fs ih =>
    by_cases h : f.Uri = uri <;> simp [hasFileUri, h, ih]

/-- Helper: the container loop of `PrepareDNS` as a map. -/
theorem dnsLoop_eq (fileId : String) (cs : List UserContainer) :
    dnsLoop fileId cs = cs.map (fun c =>
      if ∃ f ∈ c.Files, f.Path = "/etc/resolv.conf" then c
      else { c with Files := c.Files ++
        [{ Path := "/etc/resolv.conf", Filename := fileId, Perm := "0644", User := "",
           Group := "" }] }) := by
  induction cs with
  | nil => simp [dnsLoop]
  | cons c cs ih =>
    by_cases h : ∃ f ∈ c.Files, f.Path = "/etc/resolv.conf"
    · simp [dnsLoop, scanFiles_of_mem _ _ _ h, h, ih]
    · simp [dnsLoop, scanFiles_of_not_mem _ _ _ h, h, ih]

/-- C7: `PrepareDNS` is idempotent for a fixed host state: a second call returns the pod the
first call returned, with the same pod-level files and container file references. -/
theorem PrepareDNS_idempotent (hostRegular : Bool) (p : Pod) :
    ((p.PrepareDNS hostRegular).1.PrepareDNS hostRegular).1 = (p.PrepareDNS hostRegular).1 ∧
    ((p.PrepareDNS hostRegular).1.PrepareDNS hostRegular).2 = (p.PrepareDNS hostRegular).2 := by
  obtain ⟨id, status, spec, vm, containers, volumes⟩ := p
  cases spec with
  | none => simp [Pod.PrepareDNS]
  | some spec =>
    by_cases hd : spec.Dns.length > 0
    · simp [Pod.PrepareDNS, hd]
    · cases hostRegular with
      | false => simp [Pod.PrepareDNS, hd]
      | true =>
        by_cases hu : hasFileUri "file:///etc/resolv.conf" spec.Files = true
        · simp [Pod.PrepareDNS, hd, hu]
        · have hlit : "file://" ++ "/etc/resolv.conf" = "file:///etc/resolv.conf" := by decide
          have hu2 : ∀ (fs : List UserFile) (f : UserFile), f.Uri = "file:///etc/resolv.conf" →
              hasFileUri "file:///etc/resolv.conf" (fs ++ [f]) = true := by
            intro fs f hf
            rw [hasFileUri_iff]
            exact ⟨f, by simp, hf⟩
          simp only [Bool.not_eq_true] at hu
          simp [Pod.PrepareDNS, hd, hu, hlit, hu2]

/-- C8: with no `dns` entry, a regular host `/etc/resolv.conf` and no pod-level file of uri
`file:///etc/resolv.conf`, `PrepareDNS` appends the pod-level file `<podId>-resolvconf` (raw,
that uri) and appends one file reference to it (path `/etc/resolv.conf`, perm `0644`) to exactly
the containers without a file reference at that path; in every other case it returns no error
and the pod as it was. -/
theorem PrepareDNS_effect (hostRegular : Bool) (p : Pod) (spec : UserPod)
    (hspec : p.spec = some spec) :
    (spec.Dns = [] ∧ hostRegular = true ∧ (∀ f ∈ spec.Files, f.Uri ≠ "file:///etc/resolv.conf") →
      p.PrepareDNS hostRegular =
        ({ p with spec := some { spec with
            Files := spec.Files ++
              [{ Name := p.id ++ "-resolvconf", Encoding := "raw",
                 Uri := "file:///etc/resolv.conf", Contents := "" }],
            Containers := spec.Containers.map (fun c =>
              if ∃ f ∈ c.Files, f.Path = "/etc/resolv.conf" then c
              else { c with Files := c.Files ++
                [{ Path := "/etc/resolv.conf", Filename := p.id ++ "-resolvconf",
                   Perm := "0644", User := "", Group := "" }] }) } }, none)) ∧
    (¬ (spec.Dns = [] ∧ hostRegular = true ∧
        (∀ f ∈ spec.Files, f.Uri ≠ "file:///etc/resolv.conf")) →
      p.PrepareDNS hostRegular = (p, none)) := by
  have hlit : "file://" ++ "/etc/resolv.conf" = "file:///etc/resolv.conf" := by decide
  constructor
  · rintro ⟨hd, hr, hf⟩
    have hu : hasFileUri "file:///etc/resolv.conf" spec.Files = false := by
      rw [← Bool.not_eq_true, hasFileUri_iff]
      rintro ⟨f, hmem, hfu⟩
      exact hf f hmem hfu
    simp [Pod.PrepareDNS, hspec, hd, hr, hu, hlit, dnsLoop_eq]
  · intro hn
    by_cases hd : spec.Dns = []
    · by_cases hr : hostRegular = true
      · have hu : hasFileUri "file:///etc/resolv.conf" spec.Files = true := by
          rw [hasFileUri_iff]
          by_contra hc
          apply hn
          refine ⟨hd, hr, ?_⟩
          intro f hmem hfu
          exact hc ⟨f, hmem, hfu⟩
        simp [Pod.PrepareDNS, hspec, hd, hr, hu]
      · simp only [Bool.not_eq_true] at hr
        simp [Pod.PrepareDNS, hspec, hd, hr]
    · have : spec.Dns.length > 0 := List.length_pos.mpr hd
      simp [Pod.PrepareDNS, hspec, this]

/-- Witness of C8: on `exMixedPod` the file `p1-resolvconf` is added and only the first
container, which declares no `/etc/resolv.conf`, gets the reference. -/
theorem PrepareDNS_effect_witness :
    exMixedPod.spec = some exMixedSpec ∧
    (exMixedSpec.Dns = [] ∧ true = true ∧
      (∀ f ∈ exMixedSpec.Files, f.Uri ≠ "file:///etc/resolv.conf")) ∧
    ((exMixedPod.PrepareDNS true).1.spec.map (fun s => s.Containers.map (fun c => c.Files))) =
      some [[{ Path := "/etc/resolv.conf", Filename := "p1-resolvconf", Perm := "0644",
               User := "", Group := "" }],
            [{ Path := "/etc/resolv.conf", Filename := "resolv", Perm := "0600", User := "",
               Group := "" }]] :=
  ⟨rfl, ⟨rfl, rfl, by decide⟩, by
    rw [(PrepareDNS_effect true exMixedPod exMixedSpec rfl).1 ⟨rfl, rfl, by decide⟩]
    decide⟩

/-- C9: for an image that declares the VOLUME paths `vols`, `processImageVolumes` appends to the
pod one volume per path, named `id` followed by the path with slashes turned into underscores
and with an empty source, and appends to the container one reference per path to that volume
(mounted at the path, not read-only), keeping what was there; an image without volumes changes
nothing. -/
theorem processImageVolumes_effect (name : String) (args : List String) (cfg : ContainerConfig)
    (id : String) (userPod : UserPod) (container : UserContainer) :
    (∀ vols : List String,
      processImageVolumes
        { Name := name, Args := args, Config := { cfg with Volumes := some vols } }
        id userPod container =
      ({ userPod with Volumes := userPod.Volumes ++ vols.map (fun tgt =>
          { Name := id ++ replaceSlash tgt, Source := "", Driver := "" }) },
       { container with Volumes := container.Volumes ++ vols.map (fun tgt =>
          { Volume := id ++ replaceSlash tgt, Path := tgt, ReadOnly := false }) })) ∧
    processImageVolumes
      { Name := name, Args := args, Config := { cfg with Volumes := none } }
      id userPod container = (userPod, container) ∧
    processImageVolumes
      { Name := name, Args := args, Config := { cfg with Volumes := some [] } }
      id userPod container = (userPod, container) ∧
    (∀ tgt : String,
      (replaceSlash tgt).data = tgt.data.map (fun c => if c = '/' then '_' else c)) ∧
    replaceSlash "/var/lib/data" = "_var_lib_data" := by
  have hloop : ∀ (vols : List String) (vs : List UserVolume) (rs : List UserVolumeReference),
      imageVolumesLoop id vols vs rs =
        (vs ++ vols.map (fun tgt => { Name := id ++ replaceSlash tgt, Source := "", Driver := "" }),
         rs ++ vols.map (fun tgt =>
          { Volume := id ++ replaceSlash tgt, Path := tgt, ReadOnly := false })) := by
    intro vols
    induction vols with
    | nil => intro vs rs; simp [imageVolumesLoop]
    | cons tgt rest ih => intro vs rs; simp [imageVolumesLoop, ih]
  refine ⟨?_, rfl, ?_, fun _ => rfl, by decide⟩
  · intro vols
    simp [processImageVolumes, hloop]
  · simp [processImageVolumes, imageVolumesLoop]

/-- Helper: the call the loop of `processInjectFiles` builds for a reference and its file is the
described one. -/
theorem injectLoop_call (env : InjectEnv) (id sharedDir : String) (f : UserFileReference)
    (file : UserFile) (src0 : Reader)
    (h : src0 = if file.Uri = "" then Reader.strings file.Contents else Reader.uri file.Uri) :
    ({ src := if file.Encoding = "base64" then Reader.base64 src0 else src0, id := id,
       targetPath := if hasSuffixSlash f.Path then f.Path ++ f.Filename else f.Path,
       sharedDir := sharedDir, perm := env.PermInt f.Perm, uid := env.UidInt f.User,
       gid := env.UidInt f.Group } : InjectCall) = describedInjectCall env id sharedDir f file := by
  subst h
  unfold describedInjectCall
  split_ifs <;> rfl

/-- Helper: the loop of `processInjectFiles` makes the described calls up to its first failure,
all of them when it returns no error, and it returns no error when nothing fails. -/
theorem injectLoop_spec (env : InjectEnv) (files : String → Option UserFile)
    (id sharedDir : String) (fs : List UserFileReference) :
    ∀ calls : List InjectCall,
      (∃ k, (injectLoop env files id sharedDir fs calls).1 =
        calls ++ (describedInjectCalls env files id sharedDir fs).take k) ∧
      ((injectLoop env files id sharedDir fs calls).2 = none →
        (injectLoop env files id sharedDir fs calls).1 =
          calls ++ describedInjectCalls env files id sharedDir fs) ∧
      ((∀ u, env.UriReader u = none) → (∀ h c, env.InjectFile h c = none) →
        injectLoop env files id sharedDir fs calls =
          (calls ++ describedInjectCalls env files id sharedDir fs, none)) := by
  induction fs with
  | nil =>
    intro calls
    exact ⟨⟨0, by simp [injectLoop]⟩, by simp [injectLoop, describedInjectCalls],
      by simp [injectLoop, describedInjectCalls]⟩
  | cons f fs ih =>
    intro calls
    cases hfile : files f.Filename with
    | none =>
      have hd : describedInjectCalls env files id sharedDir (f :: fs) =
          describedInjectCalls env files id sharedDir fs := by
        simp [describedInjectCalls, hfile]
      have hl : injectLoop env files id sharedDir (f :: fs) calls =
          injectLoop env files id sharedDir fs calls := by
        simp [injectLoop, hfile]
      rw [hd, hl]
      exact ih calls
    | some file =>
      have hd : describedInjectCalls env files id sharedDir (f :: fs) =
          describedInjectCall env id sharedDir f file ::
            describedInjectCalls env files id sharedDir fs := by
        simp [describedInjectCalls, hfile]
      rw [hd]
      by_cases hopen : file.Uri ≠ "" ∧ ∃ err, env.UriReader file.Uri = some err
      · obtain ⟨hu, err, herr⟩ := hopen
        have hl : injectLoop env files id sharedDir (f :: fs) calls = (calls, some err) := by
          simp [injectLoop, hfile, hu, herr]
        rw [hl]
        refine ⟨⟨0, by simp⟩, by simp, ?_⟩
        intro hnu _
        rw [hnu] at herr
        exact absurd herr (by simp)
      · have hsrc : ∃ src0,
            src0 = (if file.Uri = "" then Reader.strings file.Contents
              else Reader.uri file.Uri) ∧
            (if file.Uri ≠ "" then
              match env.UriReader file.Uri with
              | some err => Except.error err
              | none => Except.ok (Reader.uri file.Uri)
            else Except.ok (Reader.strings file.Contents)) = Except.ok src0 := by
          by_cases hu : file.Uri = ""
          · exact ⟨_, rfl, by simp [hu]⟩
          · refine ⟨_, rfl, ?_⟩
            cases hr : env.UriReader file.Uri with
            | none => simp [hu]
            | some err => exact absurd ⟨hu, err, hr⟩ hopen
        obtain ⟨src0, hsrc0, hopened⟩ := hsrc
        have hcall := injectLoop_call env id sharedDir f file src0 hsrc0
        cases hinj : env.InjectFile calls (describedInjectCall env id sharedDir f file) with
        | some err =>
          have hl : injectLoop env files id sharedDir (f :: fs) calls =
              (calls ++ [describedInjectCall env id sharedDir f file], some err) := by
            simp only [injectLoop, hfile, hopened, hcall, hinj]
          rw [hl]
          refine ⟨⟨1, by simp⟩, by simp, ?_⟩
          intro _ hni
          rw [hni] at hinj
          exact absurd hinj (by simp)
        | none =>
          have hl : injectLoop env files id sharedDir (f :: fs) calls =
              injectLoop env files id sharedDir fs
                (calls ++ [describedInjectCall env id sharedDir f file]) := by
            simp only [injectLoop, hfile, hopened, hcall, hinj]
          rw [hl]
          obtain ⟨⟨k, hk⟩, hnone, hok⟩ :=
            ih (calls ++ [describedInjectCall env id sharedDir f file])
          refine ⟨⟨k + 1, by simp [hk]⟩, ?_, ?_⟩
          · intro h
            simp [hnone h]
          · intro h1 h2
            simp [hok h1 h2]

/-- C10, refuted as stated: both references of `exTwoFilesContainer` name a pod-level file, but
the storage driver fails on the first `InjectFile`, so `processInjectFiles` returns that error
after one call and never injects `g`. -/
theorem processInjectFiles_stops_at_failure :
    (exTwoFilesContainer.Files.filter (fun f => (exFiles f.Filename).isSome)).length = 2 ∧
    processInjectFiles exInjectFailEnv exTwoFilesContainer exFiles "mount-1" "/var/lib/hyper"
      "/share" =
      ([{ src := .base64 (.strings "aGVsbG8="), id := "mount-1", targetPath := "/tmp/f",
          sharedDir := "/share", perm := 420, uid := 0, gid := 0 }],
        some "no space left on device") := by
  constructor <;> decide

/-- Helper: a character of the alphabet has its six-bit value and is neither the padding sign
nor a line break. -/
theorem base64Char_spec (n : Nat) (h : n < 64) :
    base64Value (base64Char n) = some n ∧ base64Char n ≠ 61 ∧ base64Char n ≠ 10 ∧
      base64Char n ≠ 13 := by
  unfold base64Char base64Value
  split_ifs <;> first | omega | (refine ⟨?_, ?_, ?_, ?_⟩ <;> first | omega | (congr 1; omega))

/-- Helper: the padded base64 text of bytes decodes to these bytes. -/
theorem base64DecodeQuanta_encode (bytes : List Nat) (h : ∀ b ∈ bytes, b < 256) :
    base64DecodeQuanta (base64Encode bytes) = some bytes := by
  induction bytes using base64Encode.induct with
  | case1 => rfl
  | case2 a =>
    have ha : a < 256 := h a (by simp)
    obtain ⟨h1, -, -, -⟩ := base64Char_spec (a / 4) (by omega)
    obtain ⟨h2, -, -, -⟩ := base64Char_spec (a % 4 * 16) (by omega)
    simp only [base64Encode, base64DecodeQuanta, h1, h2]
    simp
    omega
  | case3 a b =>
    have ha : a < 256 := h a (by simp)
    have hb : b < 256 := h b (by simp)
    obtain ⟨h1, -, -, -⟩ := base64Char_spec (a / 4) (by omega)
    obtain ⟨h2, -, -, -⟩ := base64Char_spec (a % 4 * 16 + b / 16) (by omega)
    obtain ⟨h3, h3p, -, -⟩ := base64Char_spec (b % 16 * 4) (by omega)
    simp only [base64Encode, base64DecodeQuanta, h1, h2, h3, h3p]
    simp
    omega
  | case4 a b c rest ih =>
    have ha : a < 256 := h a (by simp)
    have hb : b < 256 := h b (by simp)
    have hc : c < 256 := h c (by simp)
    obtain ⟨h1, -, -, -⟩ := base64Char_spec (a / 4) (by omega)
    obtain ⟨h2, -, -, -⟩ := base64Char_spec (a % 4 * 16 + b / 16) (by omega)
    obtain ⟨h3, -, -, -⟩ := base64Char_spec (b % 16 * 4 + c / 64) (by omega)
    obtain ⟨h4, h4p, -, -⟩ := base64Char_spec (c % 64) (by omega)
    have ihr := ih (fun x hx => h x (by simp [hx]))
    simp only [base64Encode, base64DecodeQuanta, h1, h2, h3, h4, h4p, ihr]
    simp
    omega

/-- Helper: the padded base64 text of bytes holds no line break. -/
theorem base64Encode_no_break (bytes : List Nat) (h : ∀ b ∈ bytes, b < 256) :
    ∀ x ∈ base64Encode bytes, x ≠ 10 ∧ x ≠ 13 := by
  induction bytes using base64Encode.induct with
  | case1 => simp [base64Encode]
  | case2 a =>
    have ha : a < 256 := h a (by simp)
    obtain ⟨-, -, h1, h1b⟩ := base64Char_spec (a / 4) (by omega)
    obtain ⟨-, -, h2, h2b⟩ := base64Char_spec (a % 4 * 16) (by omega)
    simp [base64Encode, h1, h1b, h2, h2b]
  | case3 a b =>
    have ha : a < 256 := h a (by simp)
    have hb : b < 256 := h b (by simp)
    obtain ⟨-, -, h1, h1b⟩ := base64Char_spec (a / 4) (by omega)
    obtain ⟨-, -, h2, h2b⟩ := base64Char_spec (a % 4 * 16 + b / 16) (by omega)
    obtain ⟨-, -, h3, h3b⟩ := base64Char_spec (b % 16 * 4) (by omega)
    simp [base64Encode, h1, h1b, h2, h2b, h3, h3b]
  | case4 a b c rest ih =>
    have ha : a < 256 := h a (by simp)
    have hb : b < 256 := h b (by simp)
    have hc : c < 256 := h c (by simp)
    obtain ⟨-, -, h1, h1b⟩ := base64Char_spec (a / 4) (by omega)
    obtain ⟨-, -, h2, h2b⟩ := base64Char_spec (a % 4 * 16 + b / 16) (by omega)
    obtain ⟨-, -, h3, h3b⟩ := base64Char_spec (b % 16 * 4 + c / 64) (by omega)
    obtain ⟨-, -, h4, h4b⟩ := base64Char_spec (c % 64) (by omega)
    have ihr := ih (fun x hx => h x (by simp [hx]))
    simpa [base64Encode, h1, h1b, h2, h2b, h3, h3b, h4, h4b] using ihr

/-- Helper: exact account of the loop of `processInjectFiles`. When it returns no error, no
`UriReader` and no `InjectFile` call failed. When it returns the error `e`, the references split
at the first failing one: nothing failed before it, and either its `UriReader` answered `e` and
the calls end before it, or its `InjectFile` answered `e` and the calls end with it. -/
theorem injectLoop_exact (env : InjectEnv) (files : String → Option UserFile)
    (id sharedDir : String) (fs : List UserFileReference) :
    ∀ calls : List InjectCall,
      ((injectLoop env files id sharedDir fs calls).2 = none →
        (∀ (k : Nat) (call : InjectCall),
          (describedInjectCalls env files id sharedDir fs)[k]? = some call →
          env.InjectFile (calls ++ (describedInjectCalls env files id sharedDir fs).take k) call
            = none) ∧
        (∀ g ∈ fs, ∀ gfile, files g.Filename = some gfile → gfile.Uri ≠ "" →
          env.UriReader gfile.Uri = none)) ∧
      (∀ e, (injectLoop env files id sharedDir fs calls).2 = some e →
        ∃ pre f post file, fs = pre ++ f :: post ∧ files f.Filename = some file ∧
          (∀ g ∈ pre, ∀ gfile, files g.Filename = some gfile → gfile.Uri ≠ "" →
            env.UriReader gfile.Uri = none) ∧
          (∀ (k : Nat) (call : InjectCall),
            (describedInjectCalls env files id sharedDir pre)[k]? = some call →
            env.InjectFile (calls ++ (describedInjectCalls env files id sharedDir pre).take k)
              call = none) ∧
          ((file.Uri ≠ "" ∧ env.UriReader file.Uri = some e ∧
              (injectLoop env files id sharedDir fs calls).1 =
                calls ++ describedInjectCalls env files id sharedDir pre) ∨
            ((file.Uri = "" ∨ env.UriReader file.Uri = none) ∧
              env.InjectFile (calls ++ describedInjectCalls env files id sharedDir pre)
                (describedInjectCall env id sharedDir f file) = some e ∧
              (injectLoop env files id sharedDir fs calls).1 =
                calls ++ describedInjectCalls env files id sharedDir pre ++
                  [describedInjectCall env id sharedDir f file]))) := by
  induction fs with
  | nil =>
    intro calls
    refine ⟨fun _ => ⟨by simp [describedInjectCalls], by simp⟩, ?_⟩
    intro e he
    simp [injectLoop] at he
  | cons f fs ih =>
    intro calls
    cases hfile : files f.Filename with
    | none =>
      have hdp : ∀ l, describedInjectCalls env files id sharedDir (f :: l) =
          describedInjectCalls env files id sharedDir l := by
        intro l
        simp [describedInjectCalls, hfile]
      have hl : injectLoop env files id sharedDir (f :: fs) calls =
          injectLoop env files id sharedDir fs calls := by
        simp [injectLoop, hfile]
      rw [hl, hdp]
      refine ⟨?_, ?_⟩
      · intro h
        obtain ⟨h1, h2⟩ := (ih calls).1 h
        refine ⟨h1, ?_⟩
        intro g hg gfile hgf hu
        rcases List.mem_cons.mp hg with hgeq | hg1
        · rw [hgeq, hfile] at hgf
          exact absurd hgf (by simp)
        · exact h2 g hg1 gfile hgf hu
      · intro e he
        obtain ⟨pre, f1, post, file, hfs, hff, hpre, hinj, hdisj⟩ := (ih calls).2 e he
        refine ⟨f :: pre, f1, post, file, by simp [hfs], hff, ?_, ?_, ?_⟩
        · intro g hg gfile hgf hu
          rcases List.mem_cons.mp hg with hgeq | hg1
          · rw [hgeq, hfile] at hgf
            exact absurd hgf (by simp)
          · exact hpre g hg1 gfile hgf hu
        · rw [hdp]
          exact hinj
        · rw [hdp]
          exact hdisj
    | some file =>
      have hdp : ∀ l, describedInjectCalls env files id sharedDir (f :: l) =
          describedInjectCall env id sharedDir f file ::
            describedInjectCalls env files id sharedDir l := by
        intro l
        simp [describedInjectCalls, hfile]
      by_cases hopen : file.Uri ≠ "" ∧ ∃ err, env.UriReader file.Uri = some err
      · obtain ⟨hu, err, herr⟩ := hopen
        have hl : injectLoop env files id sharedDir (f :: fs) calls = (calls, some err) := by
          simp [injectLoop, hfile, hu, herr]
        rw [hl]
        refine ⟨fun h => by simp at h, ?_⟩
        intro e he
        simp only [Option.some.injEq] at he
        subst he
        exact ⟨[], f, fs, file, rfl, hfile, by simp, by simp [describedInjectCalls],
          Or.inl ⟨hu, herr, by simp [describedInjectCalls]⟩⟩
      · have hok : file.Uri = "" ∨ env.UriReader file.Uri = none := by
          by_cases hu : file.Uri = ""
          · exact Or.inl hu
          · right
            cases hr : env.UriReader file.Uri with
            | none => rfl
            | some err => exact absurd ⟨hu, err, hr⟩ hopen
        have hsrc : ∃ src0,
            src0 = (if file.Uri = "" then Reader.strings file.Contents
              else Reader.uri file.Uri) ∧
            (if file.Uri ≠ "" then
              match env.UriReader file.Uri with
              | some err => Except.error err
              | none => Except.ok (Reader.uri file.Uri)
            else Except.ok (Reader.strings file.Contents)) = Except.ok src0 := by
          by_cases hu : file.Uri = ""
          · exact ⟨_, rfl, by simp [hu]⟩
          · refine ⟨_, rfl, ?_⟩
            rcases hok with h0 | h0
            · exact absurd h0 hu
            · simp [hu, h0]
        obtain ⟨src0, hsrc0, hopened⟩ := hsrc
        have hcall := injectLoop_call env id sharedDir f file src0 hsrc0
        cases hinj : env.InjectFile calls (describedInjectCall env id sharedDir f file) with
        | some err =>
          have hl : injectLoop env files id sharedDir (f :: fs) calls =
              (calls ++ [describedInjectCall env id sharedDir f file], some err) := by
            simp only [injectLoop, hfile, hopened, hcall, hinj]
          rw [hl]
          refine ⟨fun h => by simp at h, ?_⟩
          intro e he
          simp only [Option.some.injEq] at he
          subst he
          exact ⟨[], f, fs, file, rfl, hfile, by simp, by simp [describedInjectCalls],
            Or.inr ⟨hok, by simpa [describedInjectCalls] using hinj,
              by simp [describedInjectCalls]⟩⟩
        | none =>
          have hl : injectLoop env files id sharedDir (f :: fs) calls =
              injectLoop env files id sharedDir fs
                (calls ++ [describedInjectCall env id sharedDir f file]) := by
            simp only [injectLoop, hfile, hopened, hcall, hinj]
          rw [hl]
          have huri : ∀ gfile, files f.Filename = some gfile → gfile.Uri ≠ "" →
              env.UriReader gfile.Uri = none := by
            intro gfile hgf hu
            rw [hfile] at hgf
            simp only [Option.some.injEq] at hgf
            subst hgf
            rcases hok with h0 | h0
            · exact absurd h0 hu
            · exact h0
          have hstep : ∀ (l : List UserFileReference),
              (∀ (k : Nat) (call : InjectCall),
                (describedInjectCalls env files id sharedDir l)[k]? = some call →
                env.InjectFile ((calls ++ [describedInjectCall env id sharedDir f file]) ++
                  (describedInjectCalls env files id sharedDir l).take k) call = none) →
              ∀ (k : Nat) (call : InjectCall),
                (describedInjectCalls env files id sharedDir (f :: l))[k]? = some call →
                env.InjectFile (calls ++
                  (describedInjectCalls env files id sharedDir (f :: l)).take k) call = none := by
            intro l hrest k call hk
            rw [hdp] at hk ⊢
            cases k with
            | zero =>
              simp only [List.getElem?_cons_zero, Option.some.injEq] at hk
              subst hk
              simpa using hinj
            | succ k =>
              simp only [List.getElem?_cons_succ] at hk
              have := hrest k call hk
              simpa using this
          refine ⟨?_, ?_⟩
          · intro h
            obtain ⟨h1, h2⟩ :=
              (ih (calls ++ [describedInjectCall env id sharedDir f file])).1 h
            refine ⟨hstep fs h1, ?_⟩
            intro g hg gfile hgf hu
            rcases List.mem_cons.mp hg with hgeq | hg1
            · rw [hgeq] at hgf
              exact huri gfile hgf hu
            · exact h2 g hg1 gfile hgf hu
          · intro e he
            obtain ⟨pre, f1, post, file1, hfs, hff, hpre, hinj1, hdisj⟩ :=
              (ih (calls ++ [describedInjectCall env id sharedDir f file])).2 e he
            refine ⟨f :: pre, f1, post, file1, by simp [hfs], hff, ?_, hstep pre hinj1, ?_⟩
            · intro g hg gfile hgf hu
              rcases List.mem_cons.mp hg with hgeq | hg1
              · rw [hgeq] at hgf
                exact huri gfile hgf hu
              · exact hpre g hg1 gfile hgf hu
            · rw [hdp]
              rcases hdisj with ⟨h1, h2, h3⟩ | ⟨h1, h2, h3⟩
              · exact Or.inl ⟨h1, h2, by simpa using h3⟩
              · exact Or.inr ⟨h1, by simpa using h2, by simpa using h3⟩

/-- C10, amended: `processInjectFiles` makes the described `InjectFile` calls, one per file
reference whose file name is in the pod-level table, in reference order, up to its first failing
`UriReader` or `InjectFile`. When it returns no error, it made all of them and none of these
calls failed; it makes all of them and returns no error when none of them and no `UriReader`
of a referenced file fails. When it returns the error `e`, the
references split at the first failing one: no call failed before it, and either its `UriReader`
answered `e` and the calls are those described for the references before it, or its
`InjectFile` answered `e` and the calls are those followed by its own call; nothing is called
after it. A described call for a file without uri has the reader of the literal contents,
wrapped in a base64 decoder when the encoding is base64: it yields the literal bytes, and, when
the contents are the padded base64 text of some bytes, these bytes. For the file `f` with
base64 contents `aGVsbG8=` referenced at `/tmp/` the only call has target path `/tmp/f` and a
reader yielding `hello`. -/
theorem processInjectFiles_calls (env : InjectEnv) (container : UserContainer)
    (files : String → Option UserFile) (id rootPath sharedDir : String) :
    (∃ k, (processInjectFiles env container files id rootPath sharedDir).1 =
      (describedInjectCalls env files id sharedDir container.Files).take k) ∧
    ((processInjectFiles env container files id rootPath sharedDir).2 = none →
      (processInjectFiles env container files id rootPath sharedDir).1 =
        describedInjectCalls env files id sharedDir container.Files) ∧
    ((∀ u, env.UriReader u = none) → (∀ h c, env.InjectFile h c = none) →
      processInjectFiles env container files id rootPath sharedDir =
        (describedInjectCalls env files id sharedDir container.Files, none)) ∧
    ((processInjectFiles env container files id rootPath sharedDir).2 = none →
      (∀ (k : Nat) (call : InjectCall),
        (describedInjectCalls env files id sharedDir container.Files)[k]? = some call →
        env.InjectFile ((describedInjectCalls env files id sharedDir container.Files).take k)
          call = none) ∧
      (∀ g ∈ container.Files, ∀ gfile, files g.Filename = some gfile → gfile.Uri ≠ "" →
        env.UriReader gfile.Uri = none)) ∧
    ((∀ (k : Nat) (call : InjectCall),
        (describedInjectCalls env files id sharedDir container.Files)[k]? = some call →
        env.InjectFile ((describedInjectCalls env files id sharedDir container.Files).take k)
          call = none) →
      (∀ g ∈ container.Files, ∀ gfile, files g.Filename = some gfile → gfile.Uri ≠ "" →
        env.UriReader gfile.Uri = none) →
      processInjectFiles env container files id rootPath sharedDir =
        (describedInjectCalls env files id sharedDir container.Files, none)) ∧
    (∀ e, (processInjectFiles env container files id rootPath sharedDir).2 = some e →
      ∃ pre f post file, container.Files = pre ++ f :: post ∧ files f.Filename = some file ∧
        (∀ g ∈ pre, ∀ gfile, files g.Filename = some gfile → gfile.Uri ≠ "" →
          env.UriReader gfile.Uri = none) ∧
        (∀ (k : Nat) (call : InjectCall),
          (describedInjectCalls env files id sharedDir pre)[k]? = some call →
          env.InjectFile ((describedInjectCalls env files id sharedDir pre).take k) call
            = none) ∧
        ((file.Uri ≠ "" ∧ env.UriReader file.Uri = some e ∧
            (processInjectFiles env container files id rootPath sharedDir).1 =
              describedInjectCalls env files id sharedDir pre) ∨
          ((file.Uri = "" ∨ env.UriReader file.Uri = none) ∧
            env.InjectFile (describedInjectCalls env files id sharedDir pre)
              (describedInjectCall env id sharedDir f file) = some e ∧
            (processInjectFiles env container files id rootPath sharedDir).1 =
              describedInjectCalls env files id sharedDir pre ++
                [describedInjectCall env id sharedDir f file]))) ∧
    (∀ (f : UserFileReference) (file : UserFile) (fetch : String → List Nat), file.Uri = "" →
      (describedInjectCall env id sharedDir f file).src =
        (if file.Encoding = "base64" then Reader.base64 (Reader.strings file.Contents)
          else Reader.strings file.Contents) ∧
      (file.Encoding ≠ "base64" →
        (describedInjectCall env id sharedDir f file).src.readAll fetch =
          .bytes (stringBytes file.Contents)) ∧
      (file.Encoding = "base64" → ∀ decoded : List Nat, (∀ b ∈ decoded, b < 256) →
        stringBytes file.Contents = base64Encode decoded →
        (describedInjectCall env id sharedDir f file).src.readAll fetch = .bytes decoded)) ∧
    (∀ fetch : String → List Nat,
      (processInjectFiles env exOneFileContainer exFiles id rootPath sharedDir).1.map
        (fun call => (call.targetPath, call.src.readAll fetch)) =
        [("/tmp/f", .bytes (stringBytes "hello"))]) := by
  obtain ⟨htake, hnone, hok⟩ := injectLoop_spec env files id sharedDir container.Files []
  obtain ⟨hclean, hfail⟩ := injectLoop_exact env files id sharedDir container.Files []
  refine ⟨?_, ?_, ?_, ?_, ?_, ?_, ?_, ?_⟩
  · simpa [processInjectFiles] using htake
  · simpa [processInjectFiles] using hnone
  · simpa [processInjectFiles] using hok
  · simpa [processInjectFiles] using hclean
  · intro hinj huri
    cases herr : (injectLoop env files id sharedDir container.Files []).2 with
    | none =>
      have h1 := hnone herr
      simp only [List.nil_append] at h1
      exact Prod.ext h1 herr
    | some e =>
      obtain ⟨pre, f, post, file, hsplit, hfile, _, _, hdisj⟩ := hfail e herr
      have hD : describedInjectCalls env files id sharedDir container.Files =
          describedInjectCalls env files id sharedDir pre ++
            describedInjectCall env id sharedDir f file ::
              describedInjectCalls env files id sharedDir post := by
        rw [hsplit]
        simp [describedInjectCalls, List.filterMap_append, hfile]
      rcases hdisj with ⟨hu, hr, _⟩ | ⟨_, hi, _⟩
      · have := huri f (by rw [hsplit]; simp) file hfile hu
        rw [this] at hr
        exact absurd hr (by simp)
      · have := hinj (describedInjectCalls env files id sharedDir pre).length
          (describedInjectCall env id sharedDir f file)
          (by rw [hD, List.getElem?_append_right (Nat.le_refl _)]; simp)
        rw [hD] at this
        simp only [List.nil_append, List.take_left'] at hi this
        rw [this] at hi
        exact absurd hi (by simp)
  · simpa [processInjectFiles] using hfail
  · intro f file fetch hu
    refine ⟨?_, ?_, ?_⟩
    · simp [describedInjectCall, hu]
    · intro hb
      simp [describedInjectCall, hu, hb, Reader.readAll]
    · intro hb decoded hlt henc
      have hfilter : (base64Encode decoded).filter (fun b => b ≠ 10 ∧ b ≠ 13) =
          base64Encode decoded :=
        List.filter_eq_self.mpr
          (fun x hx => by simpa using base64Encode_no_break decoded hlt x hx)
      simp only [describedInjectCall, hu, hb, if_true, Reader.readAll, base64Decode, henc,
        hfilter, base64DecodeQuanta_encode decoded hlt]
  · intro fetch
    have hfile : exFiles "f" = some
        { Name := "f", Encoding := "base64", Uri := "", Contents := "aGVsbG8=" } := by decide
    have hbytes : base64Decode (stringBytes "aGVsbG8=") = .bytes (stringBytes "hello") := by
      decide
    have hslash : hasSuffixSlash "/tmp/" = true := by decide
    have hcat : "/tmp/" ++ "f" = "/tmp/f" := by decide
    cases hinj : env.InjectFile []
        { src := .base64 (.strings "aGVsbG8="), id := id, targetPath := "/tmp/f",
          sharedDir := sharedDir, perm := env.PermInt "0644", uid := env.UidInt "",
          gid := env.UidInt "" } <;>
      simp [processInjectFiles, exOneFileContainer, exContainer, injectLoop, hfile, hslash, hcat,
        hinj, Reader.readAll, hbytes]

/-- Witness of C10 (amended). With a storage driver that never fails, both files of
`exTwoFilesContainer` are injected, `f` first. With a storage driver that always fails, the
error returned is the one of the first `InjectFile` call, made for `f`, and the call for `g` is
never made. -/
theorem processInjectFiles_calls_witness :
    ((∀ u, exInjectOkEnv.UriReader u = none) ∧ (∀ h c, exInjectOkEnv.InjectFile h c = none) ∧
      processInjectFiles exInjectOkEnv exTwoFilesContainer exFiles "mount-1" "/var/lib/hyper"
        "/share" =
        ([{ src := .base64 (.strings "aGVsbG8="), id := "mount-1", targetPath := "/tmp/f",
            sharedDir := "/share", perm := 420, uid := 0, gid := 0 },
          { src := .strings "hi", id := "mount-1", targetPath := "/etc/motd",
            sharedDir := "/share", perm := 420, uid := 0, gid := 0 }], none)) ∧
    ((processInjectFiles exInjectFailEnv exTwoFilesContainer exFiles "mount-1" "/var/lib/hyper"
        "/share").2 = some "no space left on device" ∧
      ∃ pre f post file, exTwoFilesContainer.Files = pre ++ f :: post ∧
        exFiles f.Filename = some file ∧
        ((file.Uri ≠ "" ∧ exInjectFailEnv.UriReader file.Uri = some "no space left on device" ∧
            (processInjectFiles exInjectFailEnv exTwoFilesContainer exFiles "mount-1"
              "/var/lib/hyper" "/share").1 =
              describedInjectCalls exInjectFailEnv exFiles "mount-1" "/share" pre) ∨
          ((file.Uri = "" ∨ exInjectFailEnv.UriReader file.Uri = none) ∧
            exInjectFailEnv.InjectFile
              (describedInjectCalls exInjectFailEnv exFiles "mount-1" "/share" pre)
              (describedInjectCall exInjectFailEnv "mount-1" "/share" f file) =
                some "no space left on device" ∧
            (processInjectFiles exInjectFailEnv exTwoFilesContainer exFiles "mount-1"
              "/var/lib/hyper" "/share").1 =
              describedInjectCalls exInjectFailEnv exFiles "mount-1" "/share" pre ++
                [describedInjectCall exInjectFailEnv "mount-1" "/share" f file]))) :=
  ⟨⟨fun _ => rfl, fun _ _ => rfl, by
      rw [(processInjectFiles_calls exInjectOkEnv exTwoFilesContainer exFiles "mount-1"
        "/var/lib/hyper" "/share").2.2.1 (fun _ => rfl) (fun _ _ => rfl)]
      decide⟩,
    ⟨rfl,
      ((processInjectFiles_calls exInjectFailEnv exTwoFilesContainer exFiles "mount-1"
        "/var/lib/hyper" "/share").2.2.2.2.2.1 "no space left on device" rfl).imp fun _ h =>
          h.imp fun _ h => h.imp fun _ h => h.imp fun _ h => ⟨h.1, h.2.1, h.2.2.2.2⟩⟩⟩

/-- C11: with at least 1024 running pods `CreatePod` returns the error "Pod full" and no pod,
and does nothing: no lock, no generated id, no resource directory, no image-manager call and no
`AddPod` (which is what persists the spec and changes the registry). Below 1024 every run that
returns has taken the registry lock and tried to create the resource directory. -/
theorem CreatePod_full_has_no_effect (env : CreateEnv) (podId podArgs : String)
    (autoremove : Bool) :
    (1024 ≤ env.GetRunningPodNum →
      CreatePod env podId podArgs autoremove =
        some { pod := none, err := some "Pod full, the maximum Pod is 1024!", effects := [] }) ∧
    (env.GetRunningPodNum < 1024 → ∀ r, CreatePod env podId podArgs autoremove = some r →
      CreateEffect.Lock ∈ r.effects ∧ ∃ path, CreateEffect.MkdirAll path ∈ r.effects) := by
  constructor
  · intro h
    simp [CreatePod, h]
  · intro h r hr
    have hn : ¬ env.GetRunningPodNum ≥ 1024 := by omega
    simp only [CreatePod, hn, if_false] at hr
    have hmk : ∀ id1 r0, CreatePodWithLock env id1 podArgs autoremove = some r0 →
        ∃ path, CreateEffect.MkdirAll path ∈ r0.effects := by
      intro id1 r0 h0
      unfold CreatePodWithLock at h0
      simp only at h0
      repeat' split at h0
      all_goals first
        | (simp only [Option.some.injEq] at h0; subst h0
           exact ⟨env.filepathJoin env.DefaultResourcePath id1, by simp⟩)
        | exact absurd h0 (fun hc => by simp at hc)
    split at hr
    · exact absurd hr (by simp)
    · rename_i r0 h0
      simp only [Option.some.injEq] at hr
      subst hr
      obtain ⟨path, hp⟩ := hmk _ r0 h0
      exact ⟨by simp, path, by simp [hp]⟩

/-- Witness of C11: with 1024 running pods the next `CreatePod` fails and does nothing. -/
theorem CreatePod_full_has_no_effect_witness :
    1024 ≤ (exCreateEnv 1024).GetRunningPodNum ∧
    CreatePod (exCreateEnv 1024) "" "{}" false =
      some { pod := none, err := some "Pod full, the maximum Pod is 1024!", effects := [] } :=
  ⟨Nat.le_refl _,
    (CreatePod_full_has_no_effect (exCreateEnv 1024) "" "{}" false).1 (Nat.le_refl _)⟩

/-- Helper: lookup after an assignment on an association-list map. -/
theorem mapGet_mapSet {β : Type} (m : List (String × β)) (k k1 : String) (v : β) :
    mapGet (mapSet m k v) k1 = if k1 = k then some v else mapGet m k1 := by
  by_cases h : k1 = k
  · subst h
    simp [mapGet, mapSet]
  · have hne : (k == k1) = false := by simpa using fun hc => h hc.symm
    simp only [mapGet, mapSet, List.find?_cons, hne, h, if_false]
    congr 1
    induction m with
    | nil => rfl
    | cons kv rest ih =>
      obtain ⟨a, b⟩ := kv
      by_cases h1 : a = k1
      · subst h1
        simp [List.filter_cons, List.find?_cons, h]
      · by_cases h2 : a = k
        · subst h2
          simp [List.filter_cons, List.find?_cons, h1, ih]
        · simp [List.filter_cons, List.find?_cons, h1, h2, ih]

/-- Helper: a key that is not supplied keeps its value through the assignment loop. -/
theorem setLabelsLoop_other (labels : List (String × String)) :
    ∀ (m : List (String × String)) (k : String), k ∉ labels.map Prod.fst →
      mapGet (setLabelsLoop labels m) k = mapGet m k := by
  induction labels with
  | nil => intro m k _; rfl
  | cons kv rest ih =>
    intro m k hk
    simp only [List.map_cons, List.mem_cons, not_or] at hk
    rw [setLabelsLoop, ih _ _ hk.2, mapGet_mapSet, if_neg hk.1]

/-- Helper: with distinct supplied keys, every supplied key ends with its supplied value. -/
theorem setLabelsLoop_mem (labels : List (String × String)) :
    ∀ (m : List (String × String)), (labels.map Prod.fst).Nodup →
      ∀ kv ∈ labels, mapGet (setLabelsLoop labels m) kv.1 = some kv.2 := by
  induction labels with
  | nil => intro m _ kv hkv; simp at hkv
  | cons kv0 rest ih =>
    intro m hnd kv hkv
    simp only [List.map_cons, List.nodup_cons] at hnd
    rw [setLabelsLoop]
    rcases List.mem_cons.mp hkv with h | h
    · subst h
      rw [setLabelsLoop_other rest _ _ hnd.1, mapGet_mapSet, if_pos rfl]
    · exact ih _ hnd.2 kv h

/-- Helper: the conflict scan finds nothing exactly when no supplied key is a label of the pod
or `override` is set. -/
theorem findConflict_none (podLabels : List (String × String)) (override : Bool)
    (labels : List (String × String)) :
    findConflict podLabels override labels = none ↔
      ¬ (override = false ∧ ∃ kv ∈ labels, (mapGet podLabels kv.1).isSome = true) := by
  induction labels with
  | nil => simp [findConflict]
  | cons kv rest ih =>
    cases override with
    | true => simp [findConflict] at ih ⊢; exact ih
    | false =>
      by_cases h : (mapGet podLabels kv.1).isSome = true
      · simp [findConflict, h]
      · simp only [Bool.not_eq_true] at h
        simp [findConflict, h] at ih ⊢
        exact ih

/-- Helper: a key found by the conflict scan is a supplied key that is a label of the pod. -/
theorem findConflict_some (podLabels : List (String × String)) (override : Bool)
    (labels : List (String × String)) (k : String)
    (h : findConflict podLabels override labels = some k) :
    ∃ kv ∈ labels, kv.1 = k ∧ (mapGet podLabels kv.1).isSome = true := by
  induction labels with
  | nil => simp [findConflict] at h
  | cons kv rest ih =>
    rw [findConflict] at h
    split at h
    · rename_i hc
      simp only [Bool.and_eq_true] at hc
      simp only [Option.some.injEq] at h
      exact ⟨kv, by simp, h, hc.1⟩
    · obtain ⟨kv1, hmem, hk⟩ := ih h
      exact ⟨kv1, by simp [hmem], hk⟩

/-- C12: for a registered pod and supplied labels with distinct keys: when `override` is false
and a supplied key is already a label, `SetPodLabels` returns the conflict error for such a
key, leaves the pod as it was and writes nothing to the store; otherwise the labels afterwards
map every supplied key to its supplied value and every other key to what it had before, and a
run without error has written the marshalled spec once under the pod id. -/
theorem SetPodLabels_effect (env : LabelEnv) (podId : String) (override : Bool)
    (labels : List (String × String)) (pod : Pod) (spec : UserPod)
    (hfound : lookupPod env podId = .ok pod) (hspec : pod.spec = some spec)
    (hkeys : (labels.map Prod.fst).Nodup) :
    ((override = false ∧ ∃ kv ∈ labels, (mapGet spec.Labels kv.1).isSome = true) →
      ∃ kv ∈ labels, (mapGet spec.Labels kv.1).isSome = true ∧
        SetPodLabels env podId override labels =
          some { pod := some pod, writes := [],
                 err := some ("Can't update label " ++ kv.1 ++ " without override") }) ∧
    (¬ (override = false ∧ ∃ kv ∈ labels, (mapGet spec.Labels kv.1).isSome = true) →
      ∃ r labels1,
        SetPodLabels env podId override labels = some r ∧
        r.pod = some { pod with spec := some { spec with Labels := labels1 } } ∧
        (∀ kv ∈ labels, mapGet labels1 kv.1 = some kv.2) ∧
        (∀ k, k ∉ labels.map Prod.fst → mapGet labels1 k = mapGet spec.Labels k) ∧
        (r.err = none →
          ∃ blob, env.Marshal { spec with Labels := labels1 } = .ok blob ∧
            env.WritePodToDB pod.id blob = none ∧ r.writes = [(pod.id, blob)])) := by
  constructor
  · intro hc
    cases hf : findConflict spec.Labels override labels with
    | none => exact absurd hc ((findConflict_none _ _ _).mp hf)
    | some k =>
      obtain ⟨kv, hmem, hk, hsome⟩ := findConflict_some _ _ _ _ hf
      refine ⟨kv, hmem, hsome, ?_⟩
      simp [SetPodLabels, hfound, hspec, hf, hk]
  · intro hc
    have hf := (findConflict_none spec.Labels override labels).mpr hc
    cases hm : env.Marshal { spec with Labels := setLabelsLoop labels spec.Labels } with
    | error e =>
      exact ⟨{ pod := some { pod with
                spec := some { spec with Labels := setLabelsLoop labels spec.Labels } },
               writes := [], err := some e },
        setLabelsLoop labels spec.Labels,
        by simp only [SetPodLabels, hfound, hspec, hf, hm], rfl,
        setLabelsLoop_mem labels _ hkeys, fun k hk => setLabelsLoop_other labels _ k hk,
        fun hc => by simp at hc⟩
    | ok blob =>
      cases hw : env.WritePodToDB pod.id blob with
      | some e =>
        exact ⟨{ pod := some { pod with
                  spec := some { spec with Labels := setLabelsLoop labels spec.Labels } },
                 writes := [(pod.id, blob)], err := some e },
          setLabelsLoop labels spec.Labels,
          by simp only [SetPodLabels, hfound, hspec, hf, hm, hw], rfl,
          setLabelsLoop_mem labels _ hkeys, fun k hk => setLabelsLoop_other labels _ k hk,
          fun hc => by simp at hc⟩
      | none =>
        exact ⟨{ pod := some { pod with
                  spec := some { spec with Labels := setLabelsLoop labels spec.Labels } },
                 writes := [(pod.id, blob)], err := none },
          setLabelsLoop labels spec.Labels,
          by simp only [SetPodLabels, hfound, hspec, hf, hm, hw], rfl,
          setLabelsLoop_mem labels _ hkeys, fun k hk => setLabelsLoop_other labels _ k hk,
          fun _ => ⟨blob, hm, hw, rfl⟩⟩

/-- Witness of C12: adding `env=prod` to `pod-1` without override keeps `tier=web`, sets the
new label and writes the spec once. -/
theorem SetPodLabels_effect_witness :
    lookupPod exLabelEnv "pod-1" = .ok exLabelledPod ∧
    ¬ (false = false ∧ ∃ kv ∈ [("env", "prod")],
        (mapGet [("tier", "web")] kv.1).isSome = true) ∧
    ∃ r labels1,
      SetPodLabels exLabelEnv "pod-1" false [("env", "prod")] = some r ∧
      r.pod = some { exLabelledPod with
        spec := some { exSpec with Labels := labels1 } } ∧
      (∀ kv ∈ [("env", "prod")], mapGet labels1 kv.1 = some kv.2) ∧
      (∀ k, k ∉ [("env", "prod")].map Prod.fst → mapGet labels1 k = mapGet [("tier", "web")] k) :=
  ⟨rfl, by decide,
    ((SetPodLabels_effect exLabelEnv "pod-1" false [("env", "prod")] exLabelledPod
      { exSpec with Labels := [("tier", "web")] } rfl rfl (by decide)).2
      (by decide)).imp fun _ h => h.imp fun _ h => ⟨h.1, h.2.1, h.2.2.1, h.2.2.2.1⟩⟩

/-- Helper: cutting at the index of the first `=` gives the text before and after it. -/
theorem indexEq_some (l : List Char) :
    ∀ i, indexEq l = some i →
      l.take i = l.takeWhile (fun c => c != '=') ∧
      l.drop (i + 1) = (l.dropWhile (fun c => c != '=')).drop 1 := by
  induction l with
  | nil => intro i h; simp [indexEq] at h
  | cons c cs ih =>
    intro i h
    by_cases hc : c = '='
    · subst hc
      simp only [indexEq, if_true, Option.some.injEq] at h
      subst h
      simp
    · simp only [indexEq, hc, if_false, Option.map_eq_some'] at h
      obtain ⟨j, hj, rfl⟩ := h
      obtain ⟨h1, h2⟩ := ih j hj
      simp [List.takeWhile_cons, List.dropWhile_cons, hc, h1, h2]

/-- Helper: an entry that contains `=` has an index. -/
theorem indexEq_of_mem (l : List Char) (h : '=' ∈ l) : ∃ i, indexEq l = some i := by
  induction l with
  | nil => simp at h
  | cons c cs ih =>
    by_cases hc : c = '='
    · exact ⟨0, by simp [indexEq, hc]⟩
    · have hcs : '=' ∈ cs := by
        rcases List.mem_cons.mp h with h1 | h1
        · exact absurd h1.symm hc
        · exact h1
      obtain ⟨i, hi⟩ := ih hcs
      exact ⟨i + 1, by simp [indexEq, hc, hi]⟩

/-- Helper: assigning two lists of entries one after the other. -/
theorem setLabelsLoop_append (a b : List (String × String)) :
    ∀ m, setLabelsLoop (a ++ b) m = setLabelsLoop b (setLabelsLoop a m) := by
  induction a with
  | nil => intro m; rfl
  | cons kv rest ih => intro m; simp [setLabelsLoop, ih]

/-- Helper: the last assignment of a key decides its value. -/
theorem setLabelsLoop_last (pre post : List (String × String)) (kv : String × String)
    (m : List (String × String)) (h : kv.1 ∉ post.map Prod.fst) :
    mapGet (setLabelsLoop (pre ++ kv :: post) m) kv.1 = some kv.2 := by
  rw [setLabelsLoop_append, setLabelsLoop, setLabelsLoop_other post _ _ h, mapGet_mapSet,
    if_pos rfl]

/-- Helper: the spec environment loop assigns the pairs of name and value in order. -/
theorem specEnvLoop_eq (es : List UserEnvironmentVar) :
    ∀ m, specEnvLoop es m = setLabelsLoop (es.map (fun e => (e.Env, e.Value))) m := by
  induction es with
  | nil => intro m; rfl
  | cons e rest ih => intro m; simp [specEnvLoop, setLabelsLoop, ih]

/-- Helper: when the image environment loop returns, it has assigned, in order, the text after
the first `=` of every entry to the text before it. -/
theorem imageEnvLoop_eq (vs : List String) :
    ∀ m r, imageEnvLoop vs m = some r →
      r = setLabelsLoop (vs.map (fun v => (entryName v, entryValue v))) m := by
  induction vs with
  | nil => intro m r h; simpa [imageEnvLoop, setLabelsLoop] using h.symm
  | cons v rest ih =>
    intro m r h
    rw [imageEnvLoop] at h
    split at h
    · exact absurd h (by simp)
    · rename_i i hi
      obtain ⟨h1, h2⟩ := indexEq_some v.data i hi
      rw [ih _ _ h]
      simp [setLabelsLoop, entryName, entryValue, h1, h2]

/-- Helper: the image environment loop returns when every entry contains `=`. -/
theorem imageEnvLoop_isSome (vs : List String) (h : ∀ v ∈ vs, '=' ∈ v.data) :
    ∀ m, (imageEnvLoop vs m).isSome = true := by
  induction vs with
  | nil => intro m; rfl
  | cons v rest ih =>
    intro m
    obtain ⟨i, hi⟩ := indexEq_of_mem v.data (h v (by simp))
    rw [imageEnvLoop, hi]
    exact ih (fun v1 hv1 => h v1 (by simp [hv1])) _

/-- Helper: `processImageVolumes` leaves the container list of the pod alone. -/
theorem processImageVolumes_containers (config : ContainerJSON) (id : String)
    (userPod : UserPod) (container : UserContainer) :
    (processImageVolumes config id userPod container).1.Containers = userPod.Containers := by
  unfold processImageVolumes
  split <;> rfl

/-- Helper: when the main loop of `PrepareContainers` returns without error, it has appended
one prepared container per status container, and the environment of each is the one built from
the inspected image environment and the spec container at the same index. -/
theorem prepareContainersLoop_envs (env : ContainersEnv) (sharedDir : String)
    (files : List (String × UserFile)) (cs : List Container) :
    ∀ (i : Nat) (s s1 : ContainersState),
      prepareContainersLoop env sharedDir files i cs s = some (s1, none) →
      ∃ added, s1.containers = s.containers ++ added ∧ added.length = cs.length ∧
        ∀ k c, cs[k]? = some c →
          ∃ info uc ci, env.ContainerInspect c.Id = .ok info ∧
            s.spec.Containers[i + k]? = some uc ∧ added[k]? = some ci ∧
            containerEnvs info.Config.Env uc.Envs = some ci.Envs := by
  induction cs with
  | nil =>
    intro i s s1 h
    simp only [prepareContainersLoop, Option.some.injEq, Prod.mk.injEq, and_true] at h
    subst h
    exact ⟨[], by simp, rfl, by simp⟩
  | cons c cs ih =>
    intro i s s1 h
    rw [prepareContainersLoop] at h
    split at h
    · simp at h
    · rename_i info hinfo
      simp only at h
      split at h
      · simp at h
      · rename_i mountId hmount
        split at h
        · simp at h
        · rename_i ci0 hci0
          split at h
          · simp at h
          · rename_i uc huc
            split at h
            · simp at h
            · rename_i envs henvs
              split at h
              · simp at h
              · obtain ⟨added, hadd, hlen, hall⟩ := ih _ _ _ h
                simp only at hadd hall
                refine ⟨({ Id := c.Id, Image := ci0.Image, Workdir := info.Config.WorkingDir,
                           Entrypoint := info.Config.Entrypoint,
                           Cmd := info.Config.Cmd ++ info.Args,
                           Envs := envs } : ContainerInfo) :: added,
                  by simp [hadd], by simp [hlen], ?_⟩
                intro k c1 hk
                cases k with
                | zero =>
                  simp only [List.getElem?_cons_zero, Option.some.injEq] at hk
                  subst hk
                  exact ⟨info, uc,
                    { Id := c.Id, Image := ci0.Image, Workdir := info.Config.WorkingDir,
                      Entrypoint := info.Config.Entrypoint,
                      Cmd := info.Config.Cmd ++ info.Args, Envs := envs },
                    hinfo, by simpa using huc, List.getElem?_cons_zero, henvs⟩
                | succ k =>
                  simp only [List.getElem?_cons_succ] at hk
                  obtain ⟨info1, uc1, ci1, h1, h2, h3, h4⟩ := hall k c1 hk
                  refine ⟨info1, uc1, ci1, h1, ?_, by simpa using h3, h4⟩
                  rw [processImageVolumes_containers, List.getElem?_set_ne (by omega)] at h2
                  rw [← h2]
                  congr 1
                  omega

/-- Helper: the environment built for a container is the image entries assigned in order,
followed by the spec entries assigned in order. -/
theorem containerEnvs_eq (imageEnv : List String) (specEnvs : List UserEnvironmentVar)
    (env : List (String × String)) (h : containerEnvs imageEnv specEnvs = some env) :
    env = setLabelsLoop
      (imageEnv.map (fun v => (entryName v, entryValue v)) ++
        specEnvs.map (fun e => (e.Env, e.Value))) [] := by
  unfold containerEnvs at h
  split at h
  · simp at h
  · rename_i r0 hr0
    simp only [Option.some.injEq] at h
    rw [← h, specEnvLoop_eq, imageEnvLoop_eq _ _ _ hr0, setLabelsLoop_append]

/-- C13: the environment `PrepareContainers` gives a prepared container is the image
environment overridden by the spec environment. The environment is built whenever every image
entry contains `=`; in it a name declared in the spec maps to the value of its (last) spec
entry, a name declared only in the image maps to the text after the first `=` of its (last)
image entry, and any other name is absent. After a run of `PrepareContainers` without error
the prepared container at each index holds this environment, built from the inspected image of
the status container and the spec container at that index. -/
theorem PrepareContainers_env_merge :
    (∀ (imageEnv : List String) (specEnvs : List UserEnvironmentVar),
      (∀ v ∈ imageEnv, '=' ∈ v.data) → (containerEnvs imageEnv specEnvs).isSome = true) ∧
    (∀ (imageEnv : List String) (specEnvs : List UserEnvironmentVar)
      (env : List (String × String)), containerEnvs imageEnv specEnvs = some env →
      (∀ pre e post, specEnvs = pre ++ e :: post → (∀ e1 ∈ post, e1.Env ≠ e.Env) →
        mapGet env e.Env = some e.Value) ∧
      (∀ pre v post, imageEnv = pre ++ v :: post →
        (∀ v1 ∈ post, entryName v1 ≠ entryName v) → (∀ e ∈ specEnvs, e.Env ≠ entryName v) →
        mapGet env (entryName v) = some (entryValue v)) ∧
      (∀ name, (∀ e ∈ specEnvs, e.Env ≠ name) → (∀ v ∈ imageEnv, entryName v ≠ name) →
        mapGet env name = none)) ∧
    (∀ (env : ContainersEnv) (p p1 : Pod) (spec : UserPod) (calls : List InjectCall),
      p.spec = some spec → p.PrepareContainers env = some (p1, calls, none) →
      p1.containers.length = p.status.Containers.length ∧
      ∀ (j : Nat) (c : Container), p.status.Containers[j]? = some c →
        ∃ (info : ContainerJSON) (uc : UserContainer) (ci : ContainerInfo),
          env.ContainerInspect c.Id = .ok info ∧ spec.Containers[j]? = some uc ∧
          p1.containers[j]? = some ci ∧
          containerEnvs info.Config.Env uc.Envs = some ci.Envs) := by
  refine ⟨?_, ?_, ?_⟩
  · intro imageEnv specEnvs h
    have := imageEnvLoop_isSome imageEnv h []
    unfold containerEnvs
    split
    · rename_i hn
      rw [hn] at this
      exact absurd this (by simp)
    · rfl
  · intro imageEnv specEnvs env h
    have henv := containerEnvs_eq imageEnv specEnvs env h
    refine ⟨?_, ?_, ?_⟩
    · intro pre e post hs hpost
      subst hs
      have := setLabelsLoop_last
        (imageEnv.map (fun v => (entryName v, entryValue v)) ++
          pre.map (fun e => (e.Env, e.Value)))
        (post.map (fun e => (e.Env, e.Value))) (e.Env, e.Value) []
        (by simpa using fun e1 h1 => hpost e1 h1)
      rw [henv]
      simpa using this
    · intro pre v post hs hpost hspec
      subst hs
      have := setLabelsLoop_last
        (pre.map (fun v => (entryName v, entryValue v)))
        (post.map (fun v => (entryName v, entryValue v)) ++
          specEnvs.map (fun e => (e.Env, e.Value))) (entryName v, entryValue v) []
        (by
          simp only [List.map_append, List.map_map, List.mem_append, List.mem_map,
            Function.comp_apply, not_or, not_exists, not_and]
          exact ⟨fun v1 h1 => hpost v1 h1, fun e h1 => hspec e h1⟩)
      rw [henv]
      simpa using this
    · intro name hspec himage
      rw [henv, setLabelsLoop_other]
      · rfl
      · simp only [List.map_append, List.map_map, List.mem_append, List.mem_map,
          Function.comp_apply, not_or, not_exists, not_and]
        exact ⟨fun v h1 => himage v h1, fun e h1 => hspec e h1⟩
  · intro env p p1 spec calls hspec hrun
    cases hv : p.vm with
    | none => simp [Pod.PrepareContainers, hv] at hrun
    | some vm =>
      simp only [Pod.PrepareContainers, hv, hspec] at hrun
      split at hrun
      · simp at hrun
      · rename_i s err hloop
        simp only [Option.some.injEq, Prod.mk.injEq] at hrun
        obtain ⟨hp, _, herr⟩ := hrun
        subst herr
        obtain ⟨added, hadd, hlen, hall⟩ := prepareContainersLoop_envs env _ _ _ _ _ _ hloop
        simp only [List.nil_append] at hadd
        subst hp
        simp only [hadd, hlen, true_and]
        intro j c hj
        obtain ⟨info, uc, ci, h1, h2, h3, h4⟩ := hall j c hj
        exact ⟨info, uc, ci, h1, by simpa using h2, h3, h4⟩

/-- Witness of C13: the spec of `c-a` sets `LANG` and `HOME`, the image sets `PATH`, `LANG` and
`OPTS=a=b`; the prepared container gets the spec value of `LANG`, the image values of `PATH`
and `OPTS`, and no `TERM`. -/
theorem PrepareContainers_env_merge_witness :
    ∃ p1, exEnvPod.spec = some exEnvSpec ∧
      exEnvPod.PrepareContainers exContainersEnv = some (p1, [], none) ∧
      (p1.containers.length = exEnvPod.status.Containers.length ∧
        ∀ (j : Nat) (c : Container), exEnvPod.status.Containers[j]? = some c →
          ∃ (info : ContainerJSON) (uc : UserContainer) (ci : ContainerInfo),
            exContainersEnv.ContainerInspect c.Id = .ok info ∧
            exEnvSpec.Containers[j]? = some uc ∧ p1.containers[j]? = some ci ∧
            containerEnvs info.Config.Env uc.Envs = some ci.Envs) ∧
      p1.containers.map (fun ci =>
        (mapGet ci.Envs "LANG", mapGet ci.Envs "PATH", mapGet ci.Envs "OPTS",
          mapGet ci.Envs "TERM")) = [(some "en_US", some "/bin", some "a=b", none)] :=
  ⟨_, rfl, rfl,
    PrepareContainers_env_merge.2.2 exContainersEnv exEnvPod _ exEnvSpec [] rfl rfl,
    by decide⟩

/-- Helper: the first loop of `getLogger` collects one index per container without a driver. -/
theorem needLoggerLoop_length (cs : List Container) :
    ∀ (i : Nat) (need : List Nat),
      (needLoggerLoop i cs need).length =
        need.length + (cs.filter (fun c => c.Logs.Driver.isNone)).length := by
  induction cs with
  | nil => intro i need; simp [needLoggerLoop]
  | cons c cs ih =>
    intro i need
    by_cases h : c.Logs.Driver.isNone = true
    · simp [needLoggerLoop, h, ih]; omega
    · simp [needLoggerLoop, h, ih]

/-- Helper: the context built for a status container carries its id. -/
theorem logContext_id (env : LogEnv) (spec : UserPod) (prepared : List ContainerInfo)
    (resourcePath : String) (i : Nat) (c : Container) (uc : UserContainer) :
    (logContext env spec prepared resourcePath i c uc).ContainerID = c.Id := by
  unfold logContext
  simp only
  split_ifs <;> split <;> rfl

/-- Helper: with a creator that never fails and a spec container for every index, the second
loop of `getLogger` calls the creator once per container, in order, and stores the driver of
each call in the container it was made for. -/
theorem getLoggerLoop_ok (env : LogEnv)
    (creator : List LogContext → LogContext → Option Logger × Option String)
    (spec : UserPod) (prepared : List ContainerInfo) (resourcePath : String)
    (hcreate : ∀ h ctx, (creator h ctx).2 = none) (cs : List Container) :
    ∀ (i : Nat) (visited : List Container) (calls : List LogContext),
      i + cs.length ≤ spec.Containers.length →
      ∃ cs1 added,
        getLoggerLoop env creator spec prepared resourcePath i cs visited calls =
          some (visited ++ cs1, calls ++ added, none) ∧
        cs1.length = cs.length ∧ added.length = cs.length ∧
        ∀ (k : Nat) (c : Container), cs[k]? = some c →
          ∃ ctx, added[k]? = some ctx ∧ ctx.ContainerID = c.Id ∧
            cs1[k]? = some { c with Logs :=
              { c.Logs with Driver := (creator (calls ++ added.take k) ctx).1 } } := by
  induction cs with
  | nil =>
    intro i visited calls _
    exact ⟨[], [], by simp [getLoggerLoop], rfl, rfl, by simp⟩
  | cons c cs ih =>
    intro i visited calls hlen
    simp only [List.length_cons] at hlen
    have hi : i < spec.Containers.length := by omega
    obtain ⟨uc, huc⟩ : ∃ uc, spec.Containers[i]? = some uc :=
      ⟨spec.Containers[i], List.getElem?_eq_getElem hi⟩
    obtain ⟨cs1, added, hrun, hl1, hl2, hall⟩ :=
      ih (i + 1)
        (visited ++ [{ c with Logs := { c.Logs with Driver :=
          (creator calls (logContext env spec prepared resourcePath i c uc)).1 } }])
        (calls ++ [logContext env spec prepared resourcePath i c uc]) (by omega)
    refine ⟨{ c with Logs := { c.Logs with Driver :=
        (creator calls (logContext env spec prepared resourcePath i c uc)).1 } } :: cs1,
      logContext env spec prepared resourcePath i c uc :: added, ?_, by simp [hl1],
      by simp [hl2], ?_⟩
    · rw [getLoggerLoop]
      simp only [huc, hcreate, hrun, List.append_assoc, List.singleton_append]
    · intro k c1 hk
      cases k with
      | zero =>
        simp only [List.getElem?_cons_zero, Option.some.injEq] at hk
        subst hk
        exact ⟨_, List.getElem?_cons_zero, logContext_id _ _ _ _ _ _ _, by simp⟩
      | succ k =>
        simp only [List.getElem?_cons_succ] at hk
        obtain ⟨ctx, h1, h2, h3⟩ := hall k c1 hk
        refine ⟨ctx, by simpa using h1, h2, ?_⟩
        simpa using h3

/-- C14, refuted as stated: the pod `p2` ran before and is not running; its first container
holds the driver with handle 1 and its second container none. Validation and driver lookup
succeed, and `getLogger` calls the creator for both containers: the first container does not
keep its driver, it holds the new one with handle 100. And when the creator fails on its first
call, `getLogger` returns that error and the second container still has no driver. -/
theorem getLogger_replaces_existing_driver :
    exLoggedPod.status.Containers.map (fun c => c.Logs.Driver) = [some { handle := 1 }, none] ∧
    (∃ p1 calls, exLoggedPod.getLogger exLogEnv = some (p1, calls, none) ∧
      calls.map (fun ctx => ctx.ContainerID) = ["id-a", "id-b"] ∧
      p1.status.Containers.map (fun c => c.Logs.Driver) =
        [some { handle := 100 }, some { handle := 101 }]) ∧
    (∃ p1 calls, exLoggedPod.getLogger exLogFailEnv = some (p1, calls, some "cannot open log") ∧
      calls.map (fun ctx => ctx.ContainerID) = ["id-a"] ∧
      p1.status.Containers.map (fun c => c.Logs.Driver) = [none, none]) :=
  ⟨by decide, ⟨_, _, rfl, by decide, by decide⟩, ⟨_, _, rfl, by decide, by decide⟩⟩

/-- C14, amended: let the effective log type differ from "none" and let validation, driver
lookup and every driver creation succeed. When every container holds a driver and the pod is
running, `getLogger` creates nothing and leaves the status as it is. When the pod is not
running, it calls the creator once per container, in order, and every container holds the
driver created for it, whether it had one before or not. In every case a container that had no
driver holds the driver created for it afterwards. -/
theorem getLogger_effect (env : LogEnv) (p : Pod) (spec : UserPod)
    (creator : List LogContext → LogContext → Option Logger × Option String)
    (hspec : p.spec = some spec)
    (htype : (effectiveLogConfig env spec).Type_ ≠ "none")
    (hvalid : env.ValidateLogOpts (effectiveLogConfig env spec).Type_
      (effectiveLogConfig env spec).Config = none)
    (hdriver : env.GetLogDriver (effectiveLogConfig env spec).Type_ = .ok creator)
    (hcreate : ∀ h ctx, (creator h ctx).2 = none)
    (hlen : p.status.Containers.length ≤ spec.Containers.length) :
    ∃ p1 calls, p.getLogger env = some (p1, calls, none) ∧
      ((∀ c ∈ p.status.Containers, c.Logs.Driver ≠ none) →
        p.status.Status = .S_POD_RUNNING → p1.status = p.status ∧ calls = []) ∧
      (p.status.Status ≠ .S_POD_RUNNING →
        calls.length = p.status.Containers.length ∧
        ∀ (j : Nat) (c : Container), p.status.Containers[j]? = some c →
          ∃ ctx, calls[j]? = some ctx ∧ ctx.ContainerID = c.Id ∧
            p1.status.Containers[j]? = some { c with Logs :=
              { c.Logs with Driver := (creator (calls.take j) ctx).1 } }) ∧
      (∀ (j : Nat) (c : Container), p.status.Containers[j]? = some c →
        c.Logs.Driver = none →
          ∃ ctx, calls[j]? = some ctx ∧ ctx.ContainerID = c.Id ∧
            p1.status.Containers[j]? = some { c with Logs :=
              { c.Logs with Driver := (creator (calls.take j) ctx).1 } }) := by
  obtain ⟨spec1, hs1, hc1, hl1⟩ : ∃ spec1 : UserPod,
      spec1 = (if spec.LogConfig.Type_ = "" then
        { spec with LogConfig := { Type_ := env.DefaultLog.Type_,
                                   Config := env.DefaultLog.Config } }
        else spec) ∧
      spec1.Containers = spec.Containers ∧ spec1.LogConfig = effectiveLogConfig env spec := by
    refine ⟨_, rfl, ?_, ?_⟩
    · split_ifs <;> rfl
    · unfold effectiveLogConfig
      split_ifs <;> rfl
  have hneed : (needLoggerLoop 0 p.status.Containers []).length = 0 ↔
      ∀ c ∈ p.status.Containers, c.Logs.Driver ≠ none := by
    rw [needLoggerLoop_length]
    simp [List.filter_eq_nil_iff, Option.isNone_iff_eq_none]
  have hht : ¬ spec1.LogConfig.Type_ = "none" := by rw [hl1]; exact htype
  by_cases hguard : (needLoggerLoop 0 p.status.Containers []).length = 0 ∧
      p.status.Status = .S_POD_RUNNING
  · refine ⟨{ p with spec := some spec1 }, [], ?_, fun _ _ => ⟨rfl, rfl⟩, ?_, ?_⟩
    · simp only [Pod.getLogger, hspec, ← hs1, hht, hguard, if_false]
      simp
    · intro hns
      exact absurd hguard.2 hns
    · intro j c hj hnone
      exact absurd hnone (hneed.mp hguard.1 c (List.getElem?_mem hj))
  · obtain ⟨cs1, added, hrun, hlc, hla, hall⟩ :=
      getLoggerLoop_ok env creator spec1 p.containers p.status.ResourcePath hcreate
        p.status.Containers 0 [] [] (by rw [hc1]; simpa using hlen)
    simp only [List.nil_append] at hrun hall
    have hres : p.getLogger env =
        some ({ p with spec := some spec1, status := { p.status with Containers := cs1 } },
          added, none) := by
      simp only [Pod.getLogger, hspec, ← hs1, hht, hguard, if_false]
      rw [hl1, hvalid, hdriver]
      simp only
      rw [hrun]
    refine ⟨_, added, hres, ?_, ?_, ?_⟩
    · intro hall1 hrunning
      exact absurd ⟨hneed.mpr hall1, hrunning⟩ hguard
    · intro _
      exact ⟨hla, hall⟩
    · intro j c hj _
      exact hall j c hj

/-- Witness of C14 (amended): on the pod `p2`, which is not running, the creator is called for
`id-a` and `id-b` in this order and both containers hold the driver created for them. -/
theorem getLogger_effect_witness :
    ∃ p1 calls, exLoggedPod.getLogger exLogEnv = some (p1, calls, none) ∧
      (exLoggedPod.status.Status ≠ .S_POD_RUNNING →
        calls.length = exLoggedPod.status.Containers.length ∧
        ∀ (j : Nat) (c : Container), exLoggedPod.status.Containers[j]? = some c →
          ∃ ctx, calls[j]? = some ctx ∧ ctx.ContainerID = c.Id ∧
            p1.status.Containers[j]? = some { c with Logs :=
              { c.Logs with Driver := (exCreator (calls.take j) ctx).1 } }) :=
  (getLogger_effect exLogEnv exLoggedPod { exSpec with Name := "p2" } exCreator rfl (by decide)
    rfl rfl (fun _ _ => rfl) (by decide)).imp fun _ h => h.imp fun _ h => ⟨h.1, h.2.2.1⟩

/-- Helper: the loop of `processImageVolumes` appends one volume and one reference per path. -/
theorem imageVolumesLoop_eq (id : String) (vols : List String) :
    ∀ (vs : List UserVolume) (rs : List UserVolumeReference),
      imageVolumesLoop id vols vs rs =
        (vs ++ vols.map (fun tgt => { Name := id ++ replaceSlash tgt, Source := "", Driver := "" }),
         rs ++ vols.map (fun tgt =>
          { Volume := id ++ replaceSlash tgt, Path := tgt, ReadOnly := false })) := by
  induction vols with
  | nil => intro vs rs; simp [imageVolumesLoop]
  | cons tgt rest ih => intro vs rs; simp [imageVolumesLoop, ih]

/-- Helper: a common beginning can be cancelled from equal strings. -/
theorem string_append_cancel (s a b : String) (h : s ++ a = s ++ b) : a = b := by
  have hd : (s ++ a).data = (s ++ b).data := by rw [h]
  simp only [String.data_append] at hd
  exact String.ext (List.append_cancel_left hd)

/-- Helper: on paths without underscore, turning slashes into underscores loses nothing. -/
theorem replaceSlash_injOn (a b : String) (ha : '_' ∉ a.data) (hb : '_' ∉ b.data)
    (h : replaceSlash a = replaceSlash b) : a = b := by
  have hd : a.data.map (fun c => if c = '/' then '_' else c) =
      b.data.map (fun c => if c = '/' then '_' else c) := by
    have := congrArg String.data h
    simpa [replaceSlash] using this
  apply String.ext
  generalize a.data = la at ha hd
  generalize b.data = lb at hb hd
  induction la generalizing lb with
  | nil =>
    cases lb with
    | nil => rfl
    | cons y ys => simp at hd
  | cons x xs ih =>
    cases lb with
    | nil => simp at hd
    | cons y ys =>
      simp only [List.map_cons, List.cons.injEq] at hd
      simp only [List.mem_cons, not_or] at ha hb
      have hxy : x = y := by
        have h1 := hd.1
        by_cases hx : x = '/' <;> by_cases hy : y = '/'
        · rw [hx, hy]
        · simp only [hx, hy, if_true, if_false] at h1
          exact absurd h1 hb.1
        · simp only [hx, hy, if_true, if_false] at h1
          exact absurd h1.symm ha.1
        · simpa [hx, hy] using h1
      rw [hxy, ih ha.2 ys hb.2 hd.2]

/-- C15, refuted as stated: the image VOLUME paths `/a/b` and `/a_b` are distinct, but the two
pod-level volumes synthesized for container `c1` have the same name `c1_a_b`. -/
theorem processImageVolumes_names_collide :
    ["/a/b", "/a_b"].Nodup ∧
    (processImageVolumes
      { Name := "/c1", Args := [],
        Config := { Image := "busybox", WorkingDir := "", Entrypoint := [], Cmd := [], Env := [],
                    Volumes := some ["/a/b", "/a_b"] } }
      "c1" exSpec (exContainer "c-a")).1.Volumes.map (fun v => v.Name) = ["c1_a_b", "c1_a_b"] := by
  constructor <;> decide

/-- C15, amended: the pod-level volumes `processImageVolumes` synthesizes for one container
have pairwise distinct names exactly when the image VOLUME paths stay pairwise distinct after
their slashes are turned into underscores; this is the case for pairwise distinct paths that
contain no underscore. -/
theorem processImageVolumes_names_distinct (name : String) (args : List String)
    (cfg : ContainerConfig) (id : String) (userPod : UserPod) (container : UserContainer)
    (vols : List String) :
    ∃ added,
      (processImageVolumes
        { Name := name, Args := args, Config := { cfg with Volumes := some vols } }
        id userPod container).1.Volumes = userPod.Volumes ++ added ∧
      added.length = vols.length ∧
      ((added.map (fun v => v.Name)).Nodup ↔ (vols.map replaceSlash).Nodup) ∧
      (vols.Nodup → (∀ tgt ∈ vols, '_' ∉ tgt.data) → (added.map (fun v => v.Name)).Nodup) := by
  have hnames : (vols.map (fun tgt =>
      ({ Name := id ++ replaceSlash tgt, Source := "", Driver := "" } : UserVolume))).map
        (fun v => v.Name) = (vols.map replaceSlash).map (fun s => id ++ s) := by
    simp [List.map_map, Function.comp_def]
  have hinj : Function.Injective (fun s : String => id ++ s) :=
    fun a b h => string_append_cancel id a b h
  have hiff : ((vols.map (fun tgt =>
      ({ Name := id ++ replaceSlash tgt, Source := "", Driver := "" } : UserVolume))).map
        (fun v => v.Name)).Nodup ↔ (vols.map replaceSlash).Nodup := by
    rw [hnames]
    exact List.nodup_map_iff hinj
  refine ⟨vols.map (fun tgt => { Name := id ++ replaceSlash tgt, Source := "", Driver := "" }),
    ?_, by simp, hiff, ?_⟩
  · simp [processImageVolumes, imageVolumesLoop_eq]
  · intro hnd hus
    rw [hiff]
    exact List.Nodup.map_on
      (fun a ha b hb h => replaceSlash_injOn a b (hus a ha) (hus b hb) h) hnd

/-- Witness of C15 (amended): the paths `/data` and `/var/log` contain no underscore and get
the distinct volume names `c1_data` and `c1_var_log`. -/
theorem processImageVolumes_names_distinct_witness :
    ["/data", "/var/log"].Nodup ∧ (∀ tgt ∈ ["/data", "/var/log"], '_' ∉ tgt.data) ∧
    ∃ added,
      (processImageVolumes
        { Name := "/c1", Args := [],
          Config := { Image := "busybox", WorkingDir := "", Entrypoint := [], Cmd := [],
                      Env := [], Volumes := some ["/data", "/var/log"] } }
        "c1" exSpec (exContainer "c-a")).1.Volumes = exSpec.Volumes ++ added ∧
      (added.map (fun v => v.Name)).Nodup :=
  ⟨by decide, by decide,
    (processImageVolumes_names_distinct "/c1" []
      { Image := "busybox", WorkingDir := "", Entrypoint := [], Cmd := [], Env := [],
        Volumes := none } "c1" exSpec (exContainer "c-a") ["/data", "/var/log"]).imp
      fun _ h => ⟨h.1, h.2.2.2 (by decide) (by decide)⟩⟩

end Hyperd
